import Mathlib

/-!
Shallow embedding of the analysis core of the Strategic Red Team Analyzer
(`red_team_analyzer.py`), together with proofs of the specified properties.

Python strings are modelled as `List Char`, Python floats as `ℚ` (exact
rational arithmetic; the source never relies on binary rounding), Python
dicts as association lists with insertion-order semantics (assignment to an
existing key replaces its value in place, assignment to a fresh key appends),
and a raised Python exception as the `Except.error` branch of `Except`.
The LLM gateway (`_make_api_call`, a network effect) is modelled as an
oracle function supplied as a parameter: `Except.error` is an exception
propagating out of the call after its retries are exhausted, `Except.ok`
is the text of the model response.
-/

/-- A Python `str` value, as a list of characters. -/
abbrev PyStr := List Char

/-- The character `{` (written via its code point so that brace pairing in
string literals stays unambiguous). -/
def lcurly : Char := Char.ofNat 123

/-- The character `}`. -/
def rcurly : Char := Char.ofNat 125

/-- Whether `pre` is a prefix of `l` (Python `str.startswith`). -/
def pyStartswith (l pre : PyStr) : Bool :=
  match pre, l with
  | [], _ => true
  | _ :: _, [] => false
  | p :: ps, c :: cs => p = c && pyStartswith cs ps

/-- Whether `suf` is a suffix of `l` (Python `str.endswith`). -/
def pyEndswith (l suf : PyStr) : Bool :=
  pyStartswith l.reverse suf.reverse

/-- Whether `sub` occurs as a contiguous substring of `l` (Python `sub in l`).
The empty string occurs in every string, as in Python. -/
def pyContains (l sub : PyStr) : Bool :=
  match l with
  | [] => sub.isEmpty
  | _ :: cs => pyStartswith l sub || pyContains cs sub

/-- The whitespace characters stripped by Python `str.strip()` (the ASCII ones;
the source never feeds it other whitespace). -/
def pyIsSpace (c : Char) : Bool :=
  c = ' ' || c = '\t' || c = '\n' || c = '\r' || c = Char.ofNat 11 || c = Char.ofNat 12

/-- Drop trailing characters satisfying `p`. -/
def dropTrailing (p : Char → Bool) (l : PyStr) : PyStr :=
  (l.reverse.dropWhile p).reverse

/-- Python `str.strip()` with no argument: remove leading and trailing whitespace. -/
def pyStrip (l : PyStr) : PyStr :=
  dropTrailing pyIsSpace (l.dropWhile pyIsSpace)

/-- Python `str.lower()` (ASCII case folding suffices for the source's inputs). -/
def pyLower (l : PyStr) : PyStr :=
  l.map Char.toLower

/-- Index of the first occurrence of `c`, if any. -/
def findCharIdx (c : Char) : PyStr → Option ℕ
  | [] => none
  | x :: xs => if x = c then some 0 else (findCharIdx c xs).map (· + 1)

/-- Python `s.find(c)` for a single-character needle: the least index holding
`c`, or `-1` when there is none. -/
def pyFind (l : PyStr) (c : Char) : Int :=
  match findCharIdx c l with
  | some i => (i : Int)
  | none => -1

/-- Python `s.rfind(c)` for a single-character needle: the greatest index
holding `c`, or `-1` when there is none. -/
def pyRFind (l : PyStr) (c : Char) : Int :=
  match findCharIdx c l.reverse with
  | some i => (l.length : Int) - 1 - (i : Int)
  | none => -1

/-- Python slicing `l[a:b]` for `0 ≤ a ≤ b` (the only shape the source uses). -/
def pySlice (l : PyStr) (a b : ℕ) : PyStr :=
  (l.take b).drop a

/-- Python `sep.join(parts)`. -/
def pyJoin (sep : PyStr) (parts : List PyStr) : PyStr :=
  match parts with
  | [] => []
  | [p] => p
  | p :: rest => p ++ sep ++ pyJoin sep rest

/-- First value bound to `k` in an association list (a Python dict read). -/
def dictGet {α : Type} (d : List (PyStr × α)) (k : PyStr) : Option α :=
  match d with
  | [] => none
  | (k', v) :: rest => if k' = k then some v else dictGet rest k

/-- Dict read with a default (Python `d.get(k, default)`). -/
def dictGetD {α : Type} (d : List (PyStr × α)) (k : PyStr) (dflt : α) : α :=
  (dictGet d k).getD dflt

/-- Whether the dict binds `k` (Python `k in d`). -/
def dictHas {α : Type} (d : List (PyStr × α)) (k : PyStr) : Bool :=
  (dictGet d k).isSome

/-- Python dict assignment `d[k] = v`: replace the value in place when the key
exists, append the binding otherwise. -/
def dictSet {α : Type} (d : List (PyStr × α)) (k : PyStr) (v : α) : List (PyStr × α) :=
  match d with
  | [] => [(k, v)]
  | (k', v') :: rest => if k' = k then (k', v) :: rest else (k', v') :: dictSet rest k v

/-- Longest prefix of decimal digits, with the remainder. -/
def spanDigits : PyStr → PyStr × PyStr
  | [] => ([], [])
  | c :: cs =>
    if c.isDigit then
      let (ds, rest) := spanDigits cs
      (c :: ds, rest)
    else ([], c :: cs)

/-- The natural number with decimal digits `ds`. -/
def digitsToNat (ds : PyStr) : ℕ :=
  ds.foldl (fun a c => a * 10 + (c.toNat - 48)) 0

/-- Escape backslashes and the quote character `q`, as Python `repr` does for
the cases arising here. -/
def reprEscape (q : Char) : PyStr → PyStr
  | [] => []
  | c :: cs =>
    if c = '\\' then '\\' :: '\\' :: reprEscape q cs
    else if c = q then '\\' :: q :: reprEscape q cs
    else c :: reprEscape q cs

/-- Python `repr` of a string: single quotes, switching to double quotes when
the text holds a single quote but no double quote. -/
def reprQuote (s : PyStr) : PyStr :=
  if s.contains '\'' && !(s.contains '"') then '"' :: (reprEscape '"' s ++ ['"'])
  else '\'' :: (reprEscape '\'' s ++ ['\''])

/-- A JSON value as `json.loads` produces it: `int` and `num` are kept apart
because Python distinguishes `int` from `float` results. `NaN`/`Infinity`
constants (accepted by `json.loads` but irrelevant to every property below)
are not modelled. -/
inductive Json where
  | null
  | bool (b : Bool)
  | int (n : ℤ)
  | num (q : ℚ)
  | str (s : PyStr)
  | arr (items : List Json)
  | obj (fields : List (PyStr × Json))

/-- Python truthiness (`if x:`) of a decoded JSON value. -/
def pyTruthy (j : Json) : Bool :=
  match j with
  | .null => false
  | .bool b => b
  | .int n => n ≠ 0
  | .num q => q ≠ 0
  | .str s => !s.isEmpty
  | .arr items => !items.isEmpty
  | .obj fields => !fields.isEmpty

/-- The decimal digit character for `d % 10`. -/
def digitChar (d : ℕ) : Char := Char.ofNat (48 + d % 10)

/-- Decimal digits of a natural number (fuel-recursive; the fuel `n + 1`
always suffices). Nonempty by construction. -/
def natDecimalAux : ℕ → ℕ → PyStr
  | 0, _ => []
  | fuel + 1, n => if n < 10 then [digitChar n] else natDecimalAux fuel (n / 10) ++ [digitChar (n % 10)]

/-- Python `str()` of a natural number. -/
def natDecimal (n : ℕ) : PyStr := natDecimalAux (n + 1) n

/-- Python `str()` of an integer. -/
def intDecimal (n : ℤ) : PyStr :=
  if n < 0 then '-' :: natDecimal n.natAbs else natDecimal n.toNat

/-- Decimal expansion of the fractional part `r` (with `0 ≤ r < 1`), one digit
per step, stopping when the remainder is zero or the fuel runs out. -/
def fracDigitsAux : ℕ → ℚ → PyStr
  | 0, _ => []
  | fuel + 1, r =>
    if r = 0 then []
    else
      let r10 := r * 10
      digitChar (Rat.floor r10).toNat :: fracDigitsAux fuel (r10 - (Rat.floor r10 : ℚ))

/-- Python `str()` of a float. The floats of the source are exact short
decimals, where CPython's shortest-round-trip `repr` prints exactly the
decimal expansion rendered here (with `.0` appended to integral values). -/
def renderFloat (q : ℚ) : PyStr :=
  let sign : PyStr := if q < 0 then ['-'] else []
  let a := |q|
  let ipart := natDecimal (Rat.floor a).toNat
  let frac := fracDigitsAux 17 (a - (Rat.floor a : ℚ))
  sign ++ ipart ++ '.' :: (if frac.isEmpty then ['0'] else frac)

mutual

/-- Python `str()` of a decoded JSON value. -/
def pyStr : Json → PyStr
  | .null => "None".data
  | .bool true => "True".data
  | .bool false => "False".data
  | .int n => intDecimal n
  | .num q => renderFloat q
  | .str s => s
  | .arr items => '[' :: (pyJoin ", ".data (pyReprAll items) ++ [']'])
  | .obj fields => lcurly :: (pyJoin ", ".data (pyReprMembers fields) ++ [rcurly])

/-- Python `repr()` of a decoded JSON value, as used by `str()` on the elements
of containers. -/
def pyRepr : Json → PyStr
  | .null => "None".data
  | .bool true => "True".data
  | .bool false => "False".data
  | .int n => intDecimal n
  | .num q => renderFloat q
  | .str s => reprQuote s
  | .arr items => '[' :: (pyJoin ", ".data (pyReprAll items) ++ [']'])
  | .obj fields => lcurly :: (pyJoin ", ".data (pyReprMembers fields) ++ [rcurly])

/-- The `repr` of each element of a list. -/
def pyReprAll : List Json → List PyStr
  | [] => []
  | j :: rest => pyRepr j :: pyReprAll rest

/-- The `'key': repr(value)` pieces of a dict's `repr`. -/
def pyReprMembers : List (PyStr × Json) → List PyStr
  | [] => []
  | (k, v) :: rest => (reprQuote k ++ ": ".data ++ pyRepr v) :: pyReprMembers rest

end

/-- Python float() of a string: optional surrounding whitespace and sign, then
digits with an optional fraction and exponent (at least one digit overall).
`inf`/`nan` words are not modelled; no clause below feeds them in. -/
def pyFloatOfStr (s : PyStr) : Option ℚ :=
  let t := pyStrip s
  let (neg, t1) : Bool × PyStr :=
    match t with
    | '-' :: r => (true, r)
    | '+' :: r => (false, r)
    | _ => (false, t)
  let (ipDs, t2) := spanDigits t1
  let (fpDs, t3) : PyStr × PyStr :=
    match t2 with
    | '.' :: r => spanDigits r
    | _ => ([], t2)
  if ipDs.isEmpty && fpDs.isEmpty then none
  else
    let (expo, t4) : Option ℤ × PyStr :=
      match t3 with
      | 'e' :: r | 'E' :: r =>
        let (esgn, r1) : ℤ × PyStr :=
          match r with
          | '+' :: r' => (1, r')
          | '-' :: r' => (-1, r')
          | _ => (1, r)
        let (eDs, r2) := spanDigits r1
        if eDs.isEmpty then (none, r2) else (some (esgn * (digitsToNat eDs : ℤ)), r2)
      | _ => (some 0, t3)
    match expo, t4 with
    | some e, [] =>
      let mant : ℚ := (digitsToNat ipDs : ℚ) + (digitsToNat fpDs : ℚ) / (10 : ℚ) ^ fpDs.length
      let v := mant * (10 : ℚ) ^ (e : ℤ)
      some (if neg then -v else v)
    | _, _ => none

/-- Python `float()` of a decoded JSON value: numbers and booleans convert,
numeric strings parse, everything else raises (`none` here models the
`ValueError`/`TypeError` the caller catches). -/
def pyFloat (j : Json) : Option ℚ :=
  match j with
  | .num q => some q
  | .int n => some (n : ℚ)
  | .bool b => some (if b then 1 else 0)
  | .str s => pyFloatOfStr s
  | _ => none

/-- The whitespace `json.loads` skips between tokens. -/
def jsonWs (c : Char) : Bool :=
  c = ' ' || c = '\t' || c = '\n' || c = '\r'

/-- Skip JSON inter-token whitespace. -/
def skipWsL (l : PyStr) : PyStr := l.dropWhile jsonWs

/-- Hex digit value, for `\u` escapes. -/
def hexDigit (c : Char) : Option ℕ :=
  if '0' ≤ c && c ≤ '9' then some (c.toNat - 48)
  else if 'a' ≤ c && c ≤ 'f' then some (c.toNat - 87)
  else if 'A' ≤ c && c ≤ 'F' then some (c.toNat - 55)
  else none

/-- The single-character JSON string escapes. -/
def unescapeChar (c : Char) : Option Char :=
  match c with
  | '"' => some '"'
  | '\\' => some '\\'
  | '/' => some '/'
  | 'b' => some (Char.ofNat 8)
  | 'f' => some (Char.ofNat 12)
  | 'n' => some '\n'
  | 'r' => some '\r'
  | 't' => some '\t'
  | _ => none

/-- Body of a JSON string after the opening quote, up to the closing quote.
Control characters are rejected as in `json.loads` strict mode; surrogate-pair
recombination of `\u` escapes is not modelled (no property below feeds one). -/
def parseStringBody : PyStr → Option (PyStr × PyStr)
  | [] => none
  | '"' :: rest => some ([], rest)
  | '\\' :: 'u' :: a :: b :: c :: d :: rest =>
    (match hexDigit a, hexDigit b, hexDigit c, hexDigit d with
     | some va, some vb, some vc, some vd =>
       (parseStringBody rest).map fun (s, r) =>
         (Char.ofNat (((va * 16 + vb) * 16 + vc) * 16 + vd) :: s, r)
     | _, _, _, _ => none)
  | '\\' :: e :: rest =>
    (match unescapeChar e with
     | some ch => (parseStringBody rest).map fun (s, r) => (ch :: s, r)
     | none => none)
  | c :: rest =>
    if c.toNat < 32 then none
    else (parseStringBody rest).map fun (s, r) => (c :: s, r)

/-- Exponent part of a JSON number, and assembly of the final value. -/
def parseNumberExp (neg : Bool) (ipDs fpDs : PyStr) (hasFrac : Bool) (t : PyStr) :
    Option (Json × PyStr) :=
  let finish (e : ℤ) (hasExp : Bool) (rest : PyStr) : Option (Json × PyStr) :=
    if !hasFrac && !hasExp then
      let n : ℤ := digitsToNat ipDs
      some (.int (if neg then -n else n), rest)
    else
      let mant : ℚ := (digitsToNat ipDs : ℚ) + (digitsToNat fpDs : ℚ) / (10 : ℚ) ^ fpDs.length
      let v := mant * (10 : ℚ) ^ e
      some (.num (if neg then -v else v), rest)
  match t with
  | 'e' :: r | 'E' :: r =>
    let (esgn, r1) : ℤ × PyStr :=
      match r with
      | '+' :: r' => (1, r')
      | '-' :: r' => (-1, r')
      | _ => (1, r)
    (match spanDigits r1 with
     | ([], _) => none
     | (eDs, r2) => finish (esgn * (digitsToNat eDs : ℤ)) true r2)
  | _ => finish 0 false t

/-- A JSON number token per the strict grammar `json.loads` uses: an optional
minus, an integer part without leading zeros, an optional fraction and an
optional exponent, each requiring at least one digit. The result is `.int`
when there is neither fraction nor exponent (Python returns `int` there),
else `.num` (Python returns `float`). -/
def parseNumberPy (cs : PyStr) : Option (Json × PyStr) :=
  let (neg, t1) : Bool × PyStr :=
    match cs with
    | '-' :: r => (true, r)
    | _ => (false, cs)
  match t1 with
  | [] => none
  | c0 :: _ =>
    if !c0.isDigit then none
    else
      let (ipDs, t2) := spanDigits t1
      if 2 ≤ ipDs.length && c0 = '0' then none
      else
        match t2 with
        | '.' :: r =>
          (match spanDigits r with
           | ([], _) => none
           | (fpDs, t3) => parseNumberExp neg ipDs fpDs true t3)
        | _ => parseNumberExp neg ipDs [] false t2

mutual

/-- One JSON value at the head of the input (no leading whitespace), with the
unconsumed remainder. Recursion is on a fuel counter; `parseJson` supplies
more fuel than any input can use. Object keys repeat Python dict semantics:
a duplicate key overwrites the earlier value in place. -/
def parseValue : ℕ → PyStr → Option (Json × PyStr)
  | 0, _ => none
  | _ + 1, [] => none
  | fuel + 1, c :: rest =>
    if c = '"' then
      match parseStringBody rest with
      | some (s, r) => some (.str s, r)
      | none => none
    else if c = lcurly then
      match skipWsL rest with
      | [] => none
      | c' :: r' =>
        if c' = rcurly then some (.obj [], r')
        else parseMembers fuel (c' :: r') []
    else if c = '[' then
      match skipWsL rest with
      | [] => none
      | c' :: r' =>
        if c' = ']' then some (.arr [], r')
        else parseItems fuel (c' :: r') []
    else if c = 't' then
      match rest with
      | 'r' :: 'u' :: 'e' :: r => some (.bool true, r)
      | _ => none
    else if c = 'f' then
      match rest with
      | 'a' :: 'l' :: 's' :: 'e' :: r => some (.bool false, r)
      | _ => none
    else if c = 'n' then
      match rest with
      | 'u' :: 'l' :: 'l' :: r => some (.null, r)
      | _ => none
    else if c = '-' || c.isDigit then parseNumberPy (c :: rest)
    else none

/-- The members of a JSON object, starting at a key, accumulating into a dict. -/
def parseMembers : ℕ → PyStr → List (PyStr × Json) → Option (Json × PyStr)
  | 0, _, _ => none
  | fuel + 1, cs, acc =>
    match cs with
    | '"' :: r0 =>
      (match parseStringBody r0 with
       | none => none
       | some (k, r1) =>
         match skipWsL r1 with
         | ':' :: r2 =>
           (match parseValue fuel (skipWsL r2) with
            | none => none
            | some (v, r3) =>
              let acc' := dictSet acc k v
              match skipWsL r3 with
              | ',' :: r4 => parseMembers fuel (skipWsL r4) acc'
              | c :: r4 => if c = rcurly then some (.obj acc', r4) else none
              | [] => none)
         | _ => none)
    | _ => none

/-- The items of a JSON array, starting at an item. -/
def parseItems : ℕ → PyStr → List Json → Option (Json × PyStr)
  | 0, _, _ => none
  | fuel + 1, cs, acc =>
    match parseValue fuel cs with
    | none => none
    | some (v, r) =>
      let acc' := acc ++ [v]
      match skipWsL r with
      | ',' :: r2 => parseItems fuel (skipWsL r2) acc'
      | c :: r2 => if c = ']' then some (.arr acc', r2) else none
      | [] => none

end

/-- Python `json.loads`: one complete JSON document, allowing surrounding
whitespace, rejecting trailing data. `none` models `json.JSONDecodeError`. -/
def parseJson (s : PyStr) : Option Json :=
  match parseValue (s.length + 1) (skipWsL s) with
  | some (j, r) => if (skipWsL r).isEmpty then some j else none
  | none => none

/-- The key `"analysis"`. -/
def kAnalysis : PyStr := "analysis".data

/-- The key `"confidence_score"`. -/
def kConfidence : PyStr := "confidence_score".data

/-- The key `"key_insights"`. -/
def kInsights : PyStr := "key_insights".data

/-- The key `"recommendations"`. -/
def kRecommendations : PyStr := "recommendations".data

/-- The `required_fields` dict of `_validate_json_structure`: each coercer
output field with its default. -/
def requiredFieldDefaults : List (PyStr × Json) :=
  [(kAnalysis, .str []),
   (kConfidence, .num (1/2)),
   (kInsights, .arr []),
   (kRecommendations, .arr [])]

/-- The first loop of `_validate_json_structure`: add each missing required
field with its default (appending, as Python dict assignment of a fresh key
does). -/
def ensureRequiredFields (fs : List (PyStr × Json)) : List (PyStr × Json) :=
  requiredFieldDefaults.foldl (fun d kd => if dictHas d kd.1 then d else dictSet d kd.1 kd.2) fs

/-- List cleaning of `_validate_json_structure`: a non-list becomes `[]`, and a
list becomes `[str(item) for item in items if item]`. -/
def cleanStrList (j : Json) : List Json :=
  match j with
  | .arr items => (items.filter pyTruthy).map fun it => Json.str (pyStr it)
  | _ => []

/-- `_validate_json_structure`: ensure the four required fields, stringify
`analysis`, convert and clamp `confidence_score` into `[0, 1]` (default `0.5`
when `float()` raises), clean the two list fields, and reject the record when
the stripped analysis text is under 20 characters. The value reads are
hoisted before the writes; each read is of a key no earlier write touches,
so the dict reads the same values the source reads, and writing an already
present key replaces its value in place, keeping the source's field order. -/
def validateJsonStructure (parsed : Json) : Option (List (PyStr × Json)) :=
  match parsed with
  | .obj fs0 =>
    let fs1 := ensureRequiredFields fs0
    let aStr := pyStr (dictGetD fs1 kAnalysis Json.null)
    let conf : ℚ :=
      match pyFloat (dictGetD fs1 kConfidence Json.null) with
      | some q => max 0 (min 1 q)
      | none => 1/2
    let ins := cleanStrList (dictGetD fs1 kInsights Json.null)
    let recs := cleanStrList (dictGetD fs1 kRecommendations Json.null)
    let fs2 := dictSet fs1 kAnalysis (.str aStr)
    let fs3 := dictSet fs2 kConfidence (.num conf)
    let fs4 := dictSet fs3 kInsights (.arr ins)
    let fs5 := dictSet fs4 kRecommendations (.arr recs)
    match dictGet fs5 kAnalysis with
    | some (.str s) => if (pyStrip s).length < 20 then none else some fs5
    | _ => none
  | _ => none

/-- Interior of a balanced-brace span after its opening brace, with at most
`d` further levels of nesting (the nesting the recovery regexes allow), and
the unconsumed remainder. Fuel-recursive; callers pass the input length. -/
def braceSpanAux : ℕ → ℕ → PyStr → Option (PyStr × PyStr)
  | 0, _, _ => none
  | fuel + 1, d, cs =>
    match cs with
    | [] => none
    | c :: rest =>
      if c = rcurly then some ([rcurly], rest)
      else if c = lcurly then
        match d with
        | 0 => none
        | d' + 1 =>
          match braceSpanAux fuel d' rest with
          | none => none
          | some (inner, rest') =>
            match braceSpanAux fuel d rest' with
            | none => none
            | some (tail, rest'') => some (lcurly :: (inner ++ tail), rest'')
      else
        match braceSpanAux fuel d rest with
        | none => none
        | some (tail, rest') => some (c :: tail, rest')

/-- The spans `re.findall` yields for the recovery patterns: scanning left to
right, at each opening brace the balanced span with nesting at most `d`
(matching resumes past a successful span, one character on otherwise). -/
def scanBraceCandidates : ℕ → ℕ → PyStr → List PyStr
  | 0, _, _ => []
  | fuel + 1, d, cs =>
    match cs with
    | [] => []
    | c :: rest =>
      if c = lcurly then
        match braceSpanAux (rest.length + 1) d rest with
        | some (span, rest') => (lcurly :: span) :: scanBraceCandidates fuel d rest'
        | none => scanBraceCandidates fuel d rest
      else scanBraceCandidates fuel d rest

/-- The remainder of `l` after the first occurrence of `sub`, if any. -/
def dropAfterSub (l sub : PyStr) : Option PyStr :=
  match l with
  | [] => if sub.isEmpty then some [] else none
  | c :: cs => if pyStartswith (c :: cs) sub then some ((c :: cs).drop sub.length) else dropAfterSub cs sub

/-- Whether each pattern occurs in `l`, in order, each past the previous one. -/
def containsInOrder (l : PyStr) : List PyStr → Bool
  | [] => true
  | p :: ps =>
    match dropAfterSub l p with
    | some rest => containsInOrder rest ps
    | none => false

/-- The quoted field markers the strategy-3 regex requires, in order. -/
def requiredFieldMarkers : List PyStr :=
  ["\"analysis\"".data, "\"confidence_score\"".data, "\"key_insights\"".data,
   "\"recommendations\"".data]

/-- Stable insertion keeping longer spans first, as
`sorted(matches, key=len, reverse=True)` orders candidates. -/
def insertByLenDesc (x : PyStr) : List PyStr → List PyStr
  | [] => [x]
  | y :: ys => if x.length ≤ y.length then y :: insertByLenDesc x ys else x :: y :: ys

/-- `sorted(matches, key=len, reverse=True)`. -/
def sortByLenDesc (l : List PyStr) : List PyStr :=
  l.foldl (fun acc x => insertByLenDesc x acc) []

/-- Strategy 3's candidate loop: the first candidate `json.loads` accepts
decides the outcome (its validation result is returned even when that is a
rejection); parse failures move to the next candidate. The outer `some`
records that a candidate parsed. -/
def tryCandidatesS3 : List PyStr → Option (Option (List (PyStr × Json)))
  | [] => none
  | c :: rest =>
    match parseJson c with
    | some p => some (validateJsonStructure p)
    | none => tryCandidatesS3 rest

/-- Strategy 4's candidate loop: the first candidate that parses to a dict
with an `analysis` key decides the outcome; others are skipped. -/
def tryCandidatesS4 : List PyStr → Option (Option (List (PyStr × Json)))
  | [] => none
  | c :: rest =>
    match parseJson c with
    | some (.obj fs) =>
      if dictHas fs kAnalysis then some (validateJsonStructure (.obj fs))
      else tryCandidatesS4 rest
    | some _ => tryCandidatesS4 rest
    | none => tryCandidatesS4 rest

/-- Strategies 3 and 4 of `_parse_and_validate_json`: regex recovery of
balanced-brace JSON candidates, first requiring the four field markers in
order (nesting depth 1 past the outer braces), then any JSON object holding
an `analysis` key (nesting depth 2 past the outer braces). -/
def laterStrategies (response : PyStr) : Option (List (PyStr × Json)) :=
  let cands3 := sortByLenDesc ((scanBraceCandidates (response.length + 1) 1 response).filter
    fun c => containsInOrder c requiredFieldMarkers)
  match tryCandidatesS3 cands3 with
  | some r => r
  | none =>
    let cands4 := sortByLenDesc (scanBraceCandidates (response.length + 1) 2 response)
    match tryCandidatesS4 cands4 with
    | some r => r
    | none => none

/-- Strategy 2 of `_parse_and_validate_json`: strip whitespace, remove a
fenced-code wrapper, cut to the span between the first `{` and the last `}`,
and parse that; a parse failure, or the absence of such a span, falls through
to the later strategies. -/
def coerceStrategy2 (response : PyStr) : Option (List (PyStr × Json)) :=
  let rc0 := pyStrip response
  let rc1 :=
    if pyStartswith rc0 "```json".data then rc0.drop 7
    else if pyStartswith rc0 "```".data then rc0.drop 3
    else rc0
  let rc2 := if pyEndswith rc1 "```".data then rc1.take (rc1.length - 3) else rc1
  let jsonStart := pyFind rc2 lcurly
  let jsonEnd := pyRFind rc2 rcurly + 1
  if 0 ≤ jsonStart ∧ jsonStart < jsonEnd then
    match parseJson (pySlice rc2 jsonStart.toNat jsonEnd.toNat) with
    | some parsed => validateJsonStructure parsed
    | none => laterStrategies response
  else laterStrategies response

/-- `_parse_and_validate_json`: the coercion ladder. Strategy 1 parses the
raw text directly; when only the parse itself fails does control move to
strategy 2 (a validation rejection is final, as in the source). -/
def parseAndValidateJson (response : PyStr) : Option (List (PyStr × Json)) :=
  match parseJson response with
  | some parsed => validateJsonStructure parsed
  | none => coerceStrategy2 response

/-- One entry of `PERSPECTIVE_PROMPTS`: the three prompt text pieces. -/
structure PerspectivePrompt where
  system_role : PyStr
  system_prompt : PyStr
  analysis_prompt : PyStr

/-- The `PERSPECTIVE_PROMPTS` table of `prompts.py`. The `system_role` texts
are verbatim; the multi-paragraph `system_prompt`/`analysis_prompt` bodies
are opaque marker texts: every property below is independent of prompt
wording, and only the table's key set and record shape enter the proofs. -/
def PERSPECTIVE_PROMPTS : List (PyStr × PerspectivePrompt) :=
  [("devils_advocate".data,
    ⟨"You are a thorough devil's advocate analyst who challenges assumptions and identifies strategic vulnerabilities through comprehensive analysis.".data,
     "devils_advocate system prompt body".data, "devils_advocate analysis prompt body".data⟩),
   ("systems_thinker".data,
    ⟨"You are a systems thinking expert who analyzes complex interconnections and emergent behaviors through comprehensive systems analysis.".data,
     "systems_thinker system prompt body".data, "systems_thinker analysis prompt body".data⟩),
   ("historical_analyst".data,
    ⟨"You are a historical analyst expert who draws insights from past strategic successes and failures through comprehensive historical analysis.".data,
     "historical_analyst system prompt body".data, "historical_analyst analysis prompt body".data⟩),
   ("stakeholder_advocate".data,
    ⟨"You are a stakeholder advocate who analyzes strategy impacts across all affected parties through comprehensive stakeholder analysis.".data,
     "stakeholder_advocate system prompt body".data, "stakeholder_advocate analysis prompt body".data⟩),
   ("risk_assessment".data,
    ⟨"You are a comprehensive risk analyst who evaluates threats and develops mitigation strategies through detailed risk analysis.".data,
     "risk_assessment system prompt body".data, "risk_assessment analysis prompt body".data⟩),
   ("resource_realist".data,
    ⟨"You are a resource realist who challenges feasibility and resource requirements through comprehensive resource analysis.".data,
     "resource_realist system prompt body".data, "resource_realist analysis prompt body".data⟩),
   ("market_forces".data,
    ⟨"You are a market forces analyst who examines competitive and economic pressures through comprehensive market analysis.".data,
     "market_forces system prompt body".data, "market_forces analysis prompt body".data⟩)]

/-- The `MENTAL_MODEL_PROMPTS` table of `prompts.py` (keys verbatim, bodies
as opaque marker texts, as above). -/
def MENTAL_MODEL_PROMPTS : List (PyStr × PyStr) :=
  [("first_principles".data, "first principles thinking framework body".data),
   ("inversion".data, "inversion thinking framework body".data),
   ("second_order".data, "second and third order effects framework body".data),
   ("opportunity_cost".data, "opportunity cost analysis framework body".data),
   ("base_rate".data, "base rate neglect framework body".data),
   ("confirmation_bias".data, "confirmation bias detection framework body".data),
   ("strategic_options".data, "strategic options theory framework body".data)]

/-- The `AnalysisResult` dataclass. -/
structure AnalysisResult where
  perspective : PyStr
  analysis : PyStr
  confidence_score : ℚ
  key_insights : List PyStr
  recommendations : List PyStr
  timestamp : PyStr

/-- The string a validated field holds (validated dicts always hit `.str`). -/
def jsonAsStr (j : Json) : PyStr :=
  match j with
  | .str s => s
  | _ => []

/-- The strings a validated list field holds (validated dicts always carry
`.arr` of `.str` there). -/
def jsonStrItems (j : Json) : List PyStr :=
  match j with
  | .arr items => items.filterMap fun x => match x with | .str s => some s | _ => none
  | _ => []

/-- The static tail of the search-context block (opaque; instructions text). -/
def contextInstructionsTail : PyStr :=
  "context analysis instructions and integration principles body".data

/-- The `search_context` block of `analyze_from_perspective`: empty when no
context summary is available (search disabled, provider failure, or an empty
summary), else the framed summary. -/
def searchContextBlock (contextSummary : PyStr) : PyStr :=
  if contextSummary.isEmpty then []
  else "\n\nEXTERNAL CONTEXT INTEGRATION FRAMEWORK:\n".data ++ contextSummary ++ contextInstructionsTail

/-- The known-model descriptions for the requested mental-model ids, in
request order: ids without a `MENTAL_MODEL_PROMPTS` entry contribute
nothing. -/
def mentalModelDescriptions (ms : List PyStr) : List PyStr :=
  ms.filterMap fun m => dictGet MENTAL_MODEL_PROMPTS m

/-- The `mental_model_context` block: empty when no ids were given or none
is known, else the joined descriptions in a static frame. -/
def mentalModelContextBlock (ms : List PyStr) : PyStr :=
  if ms.isEmpty then []
  else
    let ds := mentalModelDescriptions ms
    if ds.isEmpty then []
    else
      "\n\nMENTAL MODEL FRAMEWORKS TO APPLY:\n".data ++ pyJoin ['\n'] ds ++
        "\n\nWhen analyzing, explicitly apply these mental models where relevant.\n".data

/-- The static closing of the analysis prompt: calibration guide, the JSON
format demand and the two worked examples (opaque). -/
def confidenceGuideAndExamples : PyStr :=
  "\n\nCONFIDENCE CALIBRATION GUIDE: bands, JSON-only demand and worked examples body".data

/-- The `full_prompt` f-string of `analyze_from_perspective`. -/
def buildFullPrompt (pp : PerspectivePrompt) (mmc sc strategy : PyStr) : PyStr :=
  '\n' :: (pp.system_prompt ++ mmc ++ sc ++ "\n\nSTRATEGY TO ANALYZE:\n".data ++ strategy ++
    "\n\n".data ++ pp.analysis_prompt ++ confidenceGuideAndExamples)

/-- The JSON-only suffix appended to the perspective's system role. -/
def jsonOnlySuffix : PyStr :=
  " You MUST respond with ONLY valid JSON. No explanations, no markdown, no additional text.".data

/-- `analyze_from_perspective`. The gateway oracle stands for
`_make_api_call` applied to (full prompt, system prompt): `.error` is the
exception it raises once its retries are exhausted, `.ok` the response text.
`contextSummary` is the text the external search provider yielded (empty on
failure or when search is disabled — provider errors are swallowed into an
empty summary by the source's `try`). An unknown perspective raises before
the gateway is consulted; a response the coercion ladder rejects yields the
raw-text fallback result with confidence `0.5`. -/
def analyzeFromPerspective (gateway : PyStr → PyStr → Except PyStr PyStr)
    (contextSummary ts strategy perspective : PyStr) (mentalModels : List PyStr) :
    Except PyStr AnalysisResult :=
  match dictGet PERSPECTIVE_PROMPTS perspective with
  | none => .error ("Unknown perspective: ".data ++ perspective)
  | some pp =>
    let sc := searchContextBlock contextSummary
    let mmc := mentalModelContextBlock mentalModels
    let fullPrompt := buildFullPrompt pp mmc sc strategy
    let sysPrompt := pp.system_role ++ jsonOnlySuffix
    match gateway fullPrompt sysPrompt with
    | .error e => .error e
    | .ok response =>
      match parseAndValidateJson response with
      | some parsed =>
        match pyFloat (dictGetD parsed kConfidence (.num (1/2))) with
        | some q =>
          .ok ⟨perspective, jsonAsStr (dictGetD parsed kAnalysis (.str [])), q,
               jsonStrItems (dictGetD parsed kInsights (.arr [])),
               jsonStrItems (dictGetD parsed kRecommendations (.arr [])), ts⟩
        | none => .error "could not convert string to float".data
      | none => .ok ⟨perspective, response, 1/2, [], [], ts⟩

/-- The analyzer state the error classification reads: which backend is in
use and which model identifier it was constructed with. -/
structure AnalyzerConfig where
  use_openrouter : Bool
  model : PyStr

/-- The `api_type` name used in user-facing failure texts. -/
def apiTypeName (cfg : AnalyzerConfig) : PyStr :=
  if cfg.use_openrouter then "OpenRouter".data else "Anthropic".data

/-- The error-classification chain of `analyze_strategy`, producing the
user-facing `analysis` text of a failed perspective from the propagated
error message. The checks substring-match the lowercased message, in the
source's order (the `"API key"` needle keeps its capitals, as in the
source, where it therefore can never match the lowercased text). -/
def classifyFailureText (cfg : AnalyzerConfig) (errorMsg : PyStr) : PyStr :=
  let m := pyLower errorMsg
  if pyContains m "API key".data || pyContains m "unauthorized".data then
    "Analysis failed: Invalid or missing ".data ++ apiTypeName cfg ++
      " API key. Please check your configuration.".data
  else if pyContains m "model".data then
    "Analysis failed: Model '".data ++ cfg.model ++ "' not available via ".data ++
      apiTypeName cfg ++ ". Please check model name or try again later.".data
  else if pyContains m "rate limit".data then
    "Analysis failed: ".data ++ apiTypeName cfg ++
      " rate limit exceeded. Please wait a moment and try again.".data
  else if pyContains m "insufficient".data && pyContains m "credits".data then
    "Analysis failed: Insufficient ".data ++ apiTypeName cfg ++
      " credits. Please check your account balance.".data
  else if pyContains m "overloaded".data then
    "Analysis failed: ".data ++ apiTypeName cfg ++
      " servers are currently overloaded. This is temporary - please try again in a few minutes.".data
  else
    "Analysis failed (".data ++ apiTypeName cfg ++ "): ".data ++ errorMsg

/-- The degraded `AnalysisResult` recorded for a perspective whose task
raised: confidence `0.0`, the classified failure text as analysis, empty
insight and recommendation lists. -/
def failedAnalysisResult (cfg : AnalyzerConfig) (perspective errorMsg ts : PyStr) :
    AnalysisResult :=
  ⟨perspective, classifyFailureText cfg errorMsg, 0, [], [], ts⟩

/-- `analyze_strategy`: fan out one `analyze_from_perspective` task per
requested perspective (`asyncio.gather` keeps task order, so outcome `i`
belongs to `perspectives[i]`), then fold the outcomes into the result dict:
a task that raised contributes the degraded result under its own key, a
completed task contributes its result. The concurrency cap, rate-limit
sleeps and progress callbacks do not affect the returned value and are not
modelled. -/
def analyzeStrategy (cfg : AnalyzerConfig) (gateway : PyStr → PyStr → Except PyStr PyStr)
    (contextSummary ts strategy : PyStr) (perspectives mentalModels : List PyStr) :
    List (PyStr × AnalysisResult) :=
  let completed := perspectives.map fun p =>
    (p, analyzeFromPerspective gateway contextSummary ts strategy p mentalModels)
  completed.foldl
    (fun results pr =>
      match pr.2 with
      | .error e => dictSet results pr.1 (failedAnalysisResult cfg pr.1 e ts)
      | .ok r => dictSet results pr.1 r)
    []

/-- The required top-level fields `synthesize_results` validates. -/
def synthesisRequiredFields : List PyStr :=
  ["executive_summary".data, "critical_insights".data, "priority_recommendations".data,
   "risk_mitigation".data, "implementation_roadmap".data, "confidence_assessment".data]

/-- Python `field in value` on a decoded JSON value: key membership for a
dict, element equality for a list, substring for a string; on the remaining
types `in` raises `TypeError`, modelled as `.error` (which the source's
`except (json.JSONDecodeError, ValueError)` does not catch). -/
def pyIn (field : PyStr) (j : Json) : Except PyStr Bool :=
  match j with
  | .obj fs => .ok (dictHas fs field)
  | .arr items => .ok (items.any fun x => match x with | .str s => s = field | _ => false)
  | .str s => .ok (pyContains s field)
  | _ => .error "argument of type is not iterable".data

/-- The response cleaning of `synthesize_results`: strip, then cut to the
span between the first `{` and the last `}` when such a span exists, else
keep the stripped text. -/
def extractSynthContent (response : PyStr) : PyStr :=
  let rc := pyStrip response
  let jsonStart := pyFind rc lcurly
  let jsonEnd := pyRFind rc rcurly + 1
  if 0 ≤ jsonStart ∧ jsonStart < jsonEnd then pySlice rc jsonStart.toNat jsonEnd.toNat
  else rc

/-- What one synthesis attempt produced: a value that passed the
required-field check, or a caught failure (`json.JSONDecodeError` or the
`ValueError` for a missing field) that triggers a retry or the fallback. -/
inductive SynthOutcome where
  | report (j : Json)
  | invalid (errMsg : PyStr)

/-- A representative `str(e)` for a `json.JSONDecodeError` (the source only
embeds this text in the fallback's note; no property depends on it). -/
def jsonDecodeMessage : PyStr := "Expecting value: line 1 column 1 (char 0)".data

/-- The required-field loop of `synthesize_results`: the first field not
`in` the parsed value raises `ValueError` (caught, `.invalid`); a field test
on a non-container raises `TypeError` (uncaught, `.error`); when every field
is present the parsed value itself is returned. -/
def checkRequired (sr : Json) : List PyStr → Except PyStr SynthOutcome
  | [] => .ok (.report sr)
  | f :: rest =>
    match pyIn f sr with
    | .error e => .error e
    | .ok true => checkRequired sr rest
    | .ok false => .ok (.invalid ("Missing required field: ".data ++ f))

/-- One attempt of the synthesis loop. The oracle `g` maps the attempt index
to the outcome of `_make_api_call` on that attempt's prompt (each retry
appends a stricter instruction to the prompt; the index stands for that):
`.error` is an exception out of the gateway, which the attempt's
`except (json.JSONDecodeError, ValueError)` does not catch. -/
def synthAttempt (g : ℕ → Except PyStr PyStr) (i : ℕ) : Except PyStr SynthOutcome :=
  match g i with
  | .error e => .error e
  | .ok response =>
    match parseJson (extractSynthContent response) with
    | none => .ok (.invalid jsonDecodeMessage)
    | some sr => checkRequired sr synthesisRequiredFields

/-- Percent formatting `"{:.1%}"` of the fallback's summary (rounding to one
decimal; CPython rounds the underlying float half-to-even, this model rounds
half-up — the texts agree on every value any property below touches, and no
property inspects this text). -/
def formatPercent1 (q : ℚ) : PyStr :=
  let scaled := Rat.floor (q * 1000 + 1/2)
  intDecimal (scaled / 10) ++ '.' :: (intDecimal (scaled % 10) ++ ['%'])

/-- The `executive_summary` text of the fallback synthesis. -/
def fallbackExecutiveSummary (n : ℕ) (avg : ℚ) : PyStr :=
  "Analysis completed across ".data ++ natDecimal n ++
    " perspectives with average confidence of ".data ++ formatPercent1 avg ++
    ". Manual review recommended due to synthesis parsing issues.".data

/-- A JSON array of strings. -/
def strArr (l : List PyStr) : Json := .arr (l.map .str)

/-- `_create_fallback_synthesis`: pool all insights, recommendations and
confidence scores across the per-perspective results in dict order, average
the confidences (`0.5` when there are none), and assemble the fixed-shape
report with the fallback note naming the triggering error. -/
def createFallbackSynthesis (strategy : PyStr) (analysisResults : List (PyStr × AnalysisResult))
    (errorMsg : PyStr) : List (PyStr × Json) :=
  let all_insights := analysisResults.foldl (fun acc pr => acc ++ pr.2.key_insights) []
  let all_recommendations := analysisResults.foldl (fun acc pr => acc ++ pr.2.recommendations) []
  let confidence_scores := analysisResults.foldl (fun acc pr => acc ++ [pr.2.confidence_score]) []
  let avg_confidence : ℚ :=
    if !confidence_scores.isEmpty then confidence_scores.sum / (confidence_scores.length : ℚ)
    else 1/2
  [("executive_summary".data, .str (fallbackExecutiveSummary analysisResults.length avg_confidence)),
   ("critical_insights".data, strArr (if !all_insights.isEmpty then all_insights.take 3 else
     ["Comprehensive analysis completed".data, "Multiple perspectives evaluated".data,
      "Further review recommended".data])),
   ("priority_recommendations".data, strArr (if !all_recommendations.isEmpty then
     all_recommendations.take 3 else
     ["Review individual perspective analyses".data, "Validate key assumptions".data,
      "Develop implementation plan".data])),
   ("risk_mitigation".data, strArr
     ["Conduct thorough risk assessment based on individual analyses".data,
      "Implement monitoring systems for identified concerns".data,
      "Develop contingency plans for major risks".data]),
   ("implementation_roadmap".data, strArr
     ["Phase 1: Review and validate individual perspective analyses".data,
      "Phase 2: Develop detailed implementation plan".data,
      "Phase 3: Execute with continuous monitoring".data]),
   ("success_metrics".data, strArr
     ["Achievement of strategic objectives".data,
      "Risk mitigation effectiveness".data,
      "Stakeholder satisfaction levels".data]),
   ("confidence_assessment".data, .num avg_confidence),
   ("key_assumptions_to_validate".data, strArr
     ["Core strategy assumptions need validation".data,
      "Implementation feasibility requires verification".data]),
   ("alternative_approaches".data, strArr
     ["Phased implementation approach".data,
      "Alternative strategy based on risk assessment".data]),
   ("consensus_level".data, .str "Medium".data),
   ("implementation_difficulty".data, .str "Medium".data),
   ("_synthesis_note".data, .str ("Fallback synthesis used due to: ".data ++ errorMsg))]

/-- `synthesize_results`: the `for attempt in range(3)` loop, unrolled. A
gateway exception (or a `TypeError` from the membership test) propagates; a
caught parse/validation failure retries, and on the third such failure the
deterministic fallback report (with that failure's message) is returned. -/
def synthesizeResults (g : ℕ → Except PyStr PyStr) (strategy : PyStr)
    (analysisResults : List (PyStr × AnalysisResult)) : Except PyStr Json :=
  match synthAttempt g 0 with
  | .error e => .error e
  | .ok (.report j) => .ok j
  | .ok (.invalid _) =>
    match synthAttempt g 1 with
    | .error e => .error e
    | .ok (.report j) => .ok j
    | .ok (.invalid _) =>
      match synthAttempt g 2 with
      | .error e => .error e
      | .ok (.report j) => .ok j
      | .ok (.invalid e) => .ok (.obj (createFallbackSynthesis strategy analysisResults e))

/-- The analysis text `_validate_json_structure` settles on: the stringified
`analysis` value after the defaults are ensured. -/
def analysisTextOf (fs : List (PyStr × Json)) : PyStr :=
  pyStr (dictGetD (ensureRequiredFields fs) kAnalysis Json.null)

/-- The confidence `_validate_json_structure` settles on: the converted value
clamped into `[0, 1]`, or `0.5` when conversion raises. -/
def clampedConfidenceOf (fs : List (PyStr × Json)) : ℚ :=
  match pyFloat (dictGetD (ensureRequiredFields fs) kConfidence Json.null) with
  | some q => max 0 (min 1 q)
  | none => 1/2

/-- The cleaned `key_insights` list `_validate_json_structure` settles on. -/
def cleanedInsightsOf (fs : List (PyStr × Json)) : List Json :=
  cleanStrList (dictGetD (ensureRequiredFields fs) kInsights Json.null)

/-- The cleaned `recommendations` list `_validate_json_structure` settles on. -/
def cleanedRecsOf (fs : List (PyStr × Json)) : List Json :=
  cleanStrList (dictGetD (ensureRequiredFields fs) kRecommendations Json.null)

/-- The record `_validate_json_structure` returns when it accepts: the input
dict with the defaults ensured and the four fields written back cleaned. -/
def validatedDict (fs : List (PyStr × Json)) : List (PyStr × Json) :=
  dictSet (dictSet (dictSet (dictSet (ensureRequiredFields fs)
    kAnalysis (.str (analysisTextOf fs)))
    kConfidence (.num (clampedConfidenceOf fs)))
    kInsights (.arr (cleanedInsightsOf fs)))
    kRecommendations (.arr (cleanedRecsOf fs))

/-- The map entry `analyze_strategy` records for perspective `p`: the task's
result when it completed, the degraded result when it raised. -/
def strategyEntry (cfg : AnalyzerConfig) (gateway : PyStr → PyStr → Except PyStr PyStr)
    (contextSummary ts strategy : PyStr) (mentalModels : List PyStr) (p : PyStr) :
    AnalysisResult :=
  match analyzeFromPerspective gateway contextSummary ts strategy p mentalModels with
  | .error e => failedAnalysisResult cfg p e ts
  | .ok r => r

/-- Whether Python `in` is defined on the value (dict, list or string); on
the other decoded shapes it raises `TypeError`. -/
def membershipSafeJson (j : Json) : Bool :=
  match j with
  | .obj _ => true
  | .arr _ => true
  | .str _ => true
  | _ => false

/-- Whether a synthesis response avoids the uncaught `TypeError`: its
extracted content either fails to parse or parses to a shape `in` accepts. -/
def synthContentSafe (response : PyStr) : Bool :=
  match parseJson (extractSynthContent response) with
  | some j => membershipSafeJson j
  | none => true

/-- The backtick character. -/
def backtickChar : Char := Char.ofNat 96

/-- A model response that wraps JSON text in a ```json fenced code block. -/
def fenceWrap (t : PyStr) : PyStr :=
  "```json\n".data ++ t ++ "\n```".data

/-- Reading the key just written yields the written value. -/
theorem dictGet_set_self {α : Type} (d : List (PyStr × α)) (k : PyStr) (v : α) :
    dictGet (dictSet d k v) k = some v := by
  induction d with
  | nil => simp [dictSet, dictGet]
  | cons hd tl ih =>
    obtain ⟨k', v'⟩ := hd
    by_cases h : k' = k
    · simp [dictSet, dictGet, h]
    · simp [dictSet, dictGet, h, ih]

/-- Writing one key leaves the reads of the others unchanged. -/
theorem dictGet_set_ne {α : Type} (d : List (PyStr × α)) (k' k : PyStr) (v : α)
    (h : k' ≠ k) : dictGet (dictSet d k' v) k = dictGet d k := by
  induction d with
  | nil => simp [dictSet, dictGet, h]
  | cons hd tl ih =>
    obtain ⟨a, b⟩ := hd
    by_cases ha : a = k'
    · subst ha
      simp only [dictSet, if_pos rfl]
      simp [dictGet, h]
    · simp only [dictSet, if_neg ha]
      simp only [dictGet, ih]

/-- Writing back the value a key already holds is the identity. -/
theorem dictSet_same {α : Type} (d : List (PyStr × α)) (k : PyStr) (v : α)
    (h : dictGet d k = some v) : dictSet d k v = d := by
  induction d with
  | nil => exact absurd h (by simp [dictGet])
  | cons hd tl ih =>
    obtain ⟨a, b⟩ := hd
    by_cases ha : a = k
    · simp only [dictGet, if_pos ha] at h
      rw [Option.some_inj] at h
      subst h
      simp only [dictSet, if_pos ha]
    · simp only [dictGet, if_neg ha] at h
      simp only [dictSet, if_neg ha, ih h]

/-- Key membership is membership in the key list. -/
theorem dictHas_eq_keys_contains {α : Type} (d : List (PyStr × α)) (k : PyStr) :
    dictHas d k = (d.map Prod.fst).contains k := by
  induction d with
  | nil => rfl
  | cons hd tl ih =>
    obtain ⟨a, b⟩ := hd
    show (dictGet ((a, b) :: tl) k).isSome = (a :: tl.map Prod.fst).contains k
    by_cases ha : a = k
    · subst ha
      simp only [dictGet, if_pos rfl, ite_true, Option.isSome_some, List.contains_cons,
        beq_self_eq_true, Bool.true_or]
    · have hba : (k == a) = false := by
        simp [Ne.symm ha]
      simp only [dictGet, if_neg ha, List.contains_cons, hba, Bool.false_or]
      exact ih

/-- Reading another key through one `ensure` step. -/
theorem dictGet_ensureStep_ne {α : Type} (d : List (PyStr × α)) (k0 k : PyStr) (v0 : α)
    (h : k0 ≠ k) :
    dictGet (if dictHas d k0 then d else dictSet d k0 v0) k = dictGet d k := by
  split
  · rfl
  · exact dictGet_set_ne d k0 k v0 h

/-- Reading the ensured key through its own `ensure` step: the present value,
else the default. -/
theorem dictGet_ensureStep_self {α : Type} (d : List (PyStr × α)) (k0 : PyStr) (v0 : α) :
    dictGet (if dictHas d k0 then d else dictSet d k0 v0) k0
      = some ((dictGet d k0).getD v0) := by
  cases hg : dictGet d k0 with
  | some w => simp [dictHas, hg]
  | none => simp [dictHas, hg, dictGet_set_self]

/-- `analysis` after the defaults pass: the present value or its default. -/
theorem dictGet_ensure_analysis (fs : List (PyStr × Json)) :
    dictGet (ensureRequiredFields fs) kAnalysis
      = some ((dictGet fs kAnalysis).getD (.str [])) := by
  simp only [ensureRequiredFields, requiredFieldDefaults, List.foldl]
  rw [dictGet_ensureStep_ne _ _ _ _ (by decide), dictGet_ensureStep_ne _ _ _ _ (by decide),
    dictGet_ensureStep_ne _ _ _ _ (by decide), dictGet_ensureStep_self]

/-- `confidence_score` after the defaults pass. -/
theorem dictGet_ensure_confidence (fs : List (PyStr × Json)) :
    dictGet (ensureRequiredFields fs) kConfidence
      = some ((dictGet fs kConfidence).getD (.num (1/2))) := by
  simp only [ensureRequiredFields, requiredFieldDefaults, List.foldl]
  rw [dictGet_ensureStep_ne _ _ _ _ (by decide), dictGet_ensureStep_ne _ _ _ _ (by decide),
    dictGet_ensureStep_self, dictGet_ensureStep_ne _ _ _ _ (by decide)]

/-- `key_insights` after the defaults pass. -/
theorem dictGet_ensure_insights (fs : List (PyStr × Json)) :
    dictGet (ensureRequiredFields fs) kInsights
      = some ((dictGet fs kInsights).getD (.arr [])) := by
  simp only [ensureRequiredFields, requiredFieldDefaults, List.foldl]
  rw [dictGet_ensureStep_ne _ _ _ _ (by decide), dictGet_ensureStep_self,
    dictGet_ensureStep_ne _ _ _ _ (by decide), dictGet_ensureStep_ne _ _ _ _ (by decide)]

/-- `recommendations` after the defaults pass. -/
theorem dictGet_ensure_recommendations (fs : List (PyStr × Json)) :
    dictGet (ensureRequiredFields fs) kRecommendations
      = some ((dictGet fs kRecommendations).getD (.arr [])) := by
  simp only [ensureRequiredFields, requiredFieldDefaults, List.foldl]
  rw [dictGet_ensureStep_self, dictGet_ensureStep_ne _ _ _ _ (by decide),
    dictGet_ensureStep_ne _ _ _ _ (by decide), dictGet_ensureStep_ne _ _ _ _ (by decide)]

/-- The accepted record holds the settled analysis string. -/
theorem dictGet_validated_analysis (fs : List (PyStr × Json)) :
    dictGet (validatedDict fs) kAnalysis = some (.str (analysisTextOf fs)) := by
  unfold validatedDict
  rw [dictGet_set_ne _ _ _ _ (by decide), dictGet_set_ne _ _ _ _ (by decide),
    dictGet_set_ne _ _ _ _ (by decide), dictGet_set_self]

/-- The accepted record holds the settled clamped confidence. -/
theorem dictGet_validated_confidence (fs : List (PyStr × Json)) :
    dictGet (validatedDict fs) kConfidence = some (.num (clampedConfidenceOf fs)) := by
  unfold validatedDict
  rw [dictGet_set_ne _ _ _ _ (by decide), dictGet_set_ne _ _ _ _ (by decide),
    dictGet_set_self]

/-- The accepted record holds the settled insight list. -/
theorem dictGet_validated_insights (fs : List (PyStr × Json)) :
    dictGet (validatedDict fs) kInsights = some (.arr (cleanedInsightsOf fs)) := by
  unfold validatedDict
  rw [dictGet_set_ne _ _ _ _ (by decide), dictGet_set_self]

/-- The accepted record holds the settled recommendation list. -/
theorem dictGet_validated_recommendations (fs : List (PyStr × Json)) :
    dictGet (validatedDict fs) kRecommendations = some (.arr (cleanedRecsOf fs)) := by
  unfold validatedDict
  rw [dictGet_set_self]

/-- `_validate_json_structure` on a dict: the settled record when the settled
analysis text is long enough, rejection otherwise. -/
theorem validate_obj_eq (fs : List (PyStr × Json)) :
    validateJsonStructure (.obj fs)
      = if (pyStrip (analysisTextOf fs)).length < 20 then none
        else some (validatedDict fs) := by
  have hA := dictGet_validated_analysis fs
  unfold validatedDict analysisTextOf clampedConfidenceOf cleanedInsightsOf cleanedRecsOf at hA ⊢
  simp only [validateJsonStructure]
  rw [hA]

/-- An accepted coercion came from a dict, is the settled record, and passed
the length gate. -/
theorem validate_some_inv (j : Json) (out : List (PyStr × Json))
    (h : validateJsonStructure j = some out) :
    ∃ fs, j = .obj fs ∧ out = validatedDict fs
      ∧ ¬ (pyStrip (analysisTextOf fs)).length < 20 := by
  cases j with
  | obj fs =>
    rw [validate_obj_eq] at h
    by_cases hlen : (pyStrip (analysisTextOf fs)).length < 20
    · rw [if_pos hlen] at h
      exact absurd h (by simp)
    · rw [if_neg hlen] at h
      exact ⟨fs, rfl, (Option.some_inj.mp h).symm, hlen⟩
  | null => exact absurd h (by simp [validateJsonStructure])
  | bool b => exact absurd h (by simp [validateJsonStructure])
  | int n => exact absurd h (by simp [validateJsonStructure])
  | num q => exact absurd h (by simp [validateJsonStructure])
  | str s => exact absurd h (by simp [validateJsonStructure])
  | arr items => exact absurd h (by simp [validateJsonStructure])

/-- The settled confidence lies in `[0, 1]`. -/
theorem clampedConfidence_bounds (fs : List (PyStr × Json)) :
    0 ≤ clampedConfidenceOf fs ∧ clampedConfidenceOf fs ≤ 1 := by
  unfold clampedConfidenceOf
  cases hpf : pyFloat (dictGetD (ensureRequiredFields fs) kConfidence Json.null) with
  | none => norm_num
  | some q =>
    refine ⟨le_max_left 0 _, max_le (by norm_num) (min_le_left 1 q)⟩

/-- Every record the coercer accepts carries a numeric confidence in `[0, 1]`. -/
theorem validate_confidence_bound (j : Json) (out : List (PyStr × Json))
    (h : validateJsonStructure j = some out) :
    ∃ q, dictGet out kConfidence = some (.num q) ∧ 0 ≤ q ∧ q ≤ 1 := by
  obtain ⟨fs, -, rfl, -⟩ := validate_some_inv j out h
  exact ⟨clampedConfidenceOf fs, dictGet_validated_confidence fs,
    (clampedConfidence_bounds fs).1, (clampedConfidence_bounds fs).2⟩

/-- A strategy-3 candidate round that settles did so by validating a parse. -/
theorem tryCandidatesS3_inv : ∀ (l : List PyStr) (r : Option (List (PyStr × Json))),
    tryCandidatesS3 l = some r → ∃ p, r = validateJsonStructure p := by
  intro l
  induction l with
  | nil => intro r h; exact absurd h (by simp [tryCandidatesS3])
  | cons c rest ih =>
    intro r h
    simp only [tryCandidatesS3] at h
    split at h
    · rename_i p hp
      exact ⟨p, (Option.some_inj.mp h).symm⟩
    · exact ih r h

/-- A strategy-4 candidate round that settles did so by validating a parse. -/
theorem tryCandidatesS4_inv : ∀ (l : List PyStr) (r : Option (List (PyStr × Json))),
    tryCandidatesS4 l = some r → ∃ p, r = validateJsonStructure p := by
  intro l
  induction l with
  | nil => intro r h; exact absurd h (by simp [tryCandidatesS4])
  | cons c rest ih =>
    intro r h
    simp only [tryCandidatesS4] at h
    split at h
    · split at h
      · exact ⟨_, (Option.some_inj.mp h).symm⟩
      · exact ih r h
    · exact ih r h
    · exact ih r h

/-- A recovery-strategy success came from `_validate_json_structure`. -/
theorem laterStrategies_inv (resp : PyStr) (out : List (PyStr × Json))
    (h : laterStrategies resp = some out) : ∃ p, validateJsonStructure p = some out := by
  simp only [laterStrategies] at h
  split at h
  · rename_i r3 h3
    obtain ⟨p, hp⟩ := tryCandidatesS3_inv _ _ h3
    exact ⟨p, by rw [← hp]; exact h⟩
  · split at h
    · rename_i r4 h4
      obtain ⟨p, hp⟩ := tryCandidatesS4_inv _ _ h4
      exact ⟨p, by rw [← hp]; exact h⟩
    · exact absurd h (by simp)

/-- A strategy-2 success came from `_validate_json_structure`. -/
theorem coerceStrategy2_inv (resp : PyStr) (out : List (PyStr × Json))
    (h : coerceStrategy2 resp = some out) : ∃ p, validateJsonStructure p = some out := by
  simp only [coerceStrategy2] at h
  repeat' split at h
  all_goals first
    | exact ⟨_, h⟩
    | exact laterStrategies_inv resp out h

/-- Every record the coercion ladder yields passed `_validate_json_structure`. -/
theorem parseAndValidateJson_some_inv (resp : PyStr) (out : List (PyStr × Json))
    (h : parseAndValidateJson resp = some out) : ∃ p, validateJsonStructure p = some out := by
  unfold parseAndValidateJson at h
  split at h
  · rename_i parsed hparsed
    exact ⟨parsed, h⟩
  · exact coerceStrategy2_inv resp out h

/-- Every result `analyze_from_perspective` completes with carries a
confidence in `[0, 1]` (the validated clamped value, or `0.5` on coercion
failure). -/
theorem analyzeFromPerspective_confidence (gateway : PyStr → PyStr → Except PyStr PyStr)
    (cs ts strategy p : PyStr) (ms : List PyStr) (r : AnalysisResult)
    (h : analyzeFromPerspective gateway cs ts strategy p ms = .ok r) :
    0 ≤ r.confidence_score ∧ r.confidence_score ≤ 1 := by
  simp only [analyzeFromPerspective] at h
  split at h
  · exact absurd h (by simp)
  · split at h
    · exact absurd h (by simp)
    · rename_i response hresp
      split at h
      · rename_i parsed hparsed
        split at h
        · rename_i q hq
          obtain ⟨j, hj⟩ := parseAndValidateJson_some_inv response parsed hparsed
          obtain ⟨q', hq', h0, h1⟩ := validate_confidence_bound j parsed hj
          have : pyFloat (dictGetD parsed kConfidence (.num (1/2))) = some q' := by
            unfold dictGetD
            rw [hq']
            rfl
          rw [this] at hq
          obtain rfl : q' = q := Option.some_inj.mp hq
          injection h with h2
          subst h2
          exact ⟨h0, h1⟩
        · exact absurd h (by simp)
      · injection h with h2
        subst h2
        constructor <;> norm_num

/-- The result-accumulation fold of `analyze_strategy`: a requested
perspective reads as its task's entry, anything else reads through to the
accumulator. -/
theorem dictGet_strategy_fold (cfg : AnalyzerConfig)
    (gateway : PyStr → PyStr → Except PyStr PyStr) (cs ts strategy : PyStr)
    (ms : List PyStr) :
    ∀ (l : List PyStr) (acc : List (PyStr × AnalysisResult)) (p : PyStr),
      dictGet ((l.map fun q => (q, analyzeFromPerspective gateway cs ts strategy q ms)).foldl
        (fun results pr =>
          match pr.2 with
          | .error e => dictSet results pr.1 (failedAnalysisResult cfg pr.1 e ts)
          | .ok r => dictSet results pr.1 r) acc) p
      = if p ∈ l then some (strategyEntry cfg gateway cs ts strategy ms p)
        else dictGet acc p := by
  intro l
  induction l with
  | nil =>
    intro acc p
    simp
  | cons q rest ih =>
    intro acc p
    simp only [List.map_cons, List.foldl_cons]
    rw [ih]
    by_cases hq : p = q
    · subst hq
      rw [if_pos (List.mem_cons_self p rest)]
      by_cases hr : p ∈ rest
      · rw [if_pos hr]
      · rw [if_neg hr]
        unfold strategyEntry
        cases hA : analyzeFromPerspective gateway cs ts strategy p ms with
        | error e =>
          simp only [hA]
          exact dictGet_set_self _ _ _
        | ok r =>
          simp only [hA]
          exact dictGet_set_self _ _ _
    · by_cases hr : p ∈ rest
      · rw [if_pos hr, if_pos (List.mem_cons_of_mem q hr)]
      · rw [if_neg hr, if_neg (by simp [List.mem_cons, hq, hr])]
        cases hA : analyzeFromPerspective gateway cs ts strategy q ms with
        | error e =>
          simp only [hA]
          exact dictGet_set_ne _ _ _ _ fun hh => hq hh.symm
        | ok r =>
          simp only [hA]
          exact dictGet_set_ne _ _ _ _ fun hh => hq hh.symm

/-- Reading the map `analyze_strategy` returns: requested perspectives hold
their task's entry, nothing else is bound. -/
theorem dictGet_analyzeStrategy (cfg : AnalyzerConfig)
    (gateway : PyStr → PyStr → Except PyStr PyStr) (cs ts strategy : PyStr)
    (l ms : List PyStr) (p : PyStr) :
    dictGet (analyzeStrategy cfg gateway cs ts strategy l ms) p
      = if p ∈ l then some (strategyEntry cfg gateway cs ts strategy ms p) else none := by
  simp only [analyzeStrategy]
  rw [dictGet_strategy_fold]
  rfl

/-- Dropping the unknown mental-model ids leaves the collected descriptions
unchanged. -/
theorem mentalModelDescriptions_filter (ms : List PyStr) :
    mentalModelDescriptions (ms.filter fun m => dictHas MENTAL_MODEL_PROMPTS m)
      = mentalModelDescriptions ms := by
  induction ms with
  | nil => rfl
  | cons m rest ih =>
    unfold mentalModelDescriptions at ih ⊢
    cases hm : dictGet MENTAL_MODEL_PROMPTS m with
    | some d =>
      have hh : dictHas MENTAL_MODEL_PROMPTS m = true := by
        simp [dictHas, hm]
      simp [List.filter_cons, hh, List.filterMap_cons, hm, ih]
    | none =>
      have hh : dictHas MENTAL_MODEL_PROMPTS m = false := by
        simp [dictHas, hm]
      simp [List.filter_cons, hh, List.filterMap_cons, hm, ih]

/-- Dropping the unknown mental-model ids leaves the prompt block unchanged. -/
theorem mentalModelContextBlock_filter (ms : List PyStr) :
    mentalModelContextBlock (ms.filter fun m => dictHas MENTAL_MODEL_PROMPTS m)
      = mentalModelContextBlock ms := by
  by_cases hms : ms = []
  · subst hms
    rfl
  · unfold mentalModelContextBlock
    rw [mentalModelDescriptions_filter]
    by_cases hf : (ms.filter fun m => dictHas MENTAL_MODEL_PROMPTS m) = []
    · have hd : mentalModelDescriptions ms = [] := by
        rw [← mentalModelDescriptions_filter ms, hf]
        rfl
      simp [hf, hd, hms]
    · simp [hf, hms]

/-- C3: for every strategy string and every requested perspective list, the
map `analyze_strategy` returns is keyed by exactly the requested perspective
identifiers, however many individual tasks failed: a perspective is bound in
the result iff it was requested. -/
theorem c3_analyze_strategy_key_set (cfg : AnalyzerConfig)
    (gateway : PyStr → PyStr → Except PyStr PyStr) (cs ts strategy : PyStr)
    (perspectives ms : List PyStr) (p : PyStr) :
    dictHas (analyzeStrategy cfg gateway cs ts strategy perspectives ms) p = true
      ↔ p ∈ perspectives := by
  unfold dictHas
  rw [dictGet_analyzeStrategy]
  by_cases hp : p ∈ perspectives
  · simp [hp]
  · simp [hp]

/-- Witness for C3 at a concrete request: with a gateway that always raises,
the two requested perspectives are both bound and an unrequested one is not. -/
theorem c3_analyze_strategy_key_set_witness :
    (dictHas (analyzeStrategy ⟨true, "gemini".data⟩
        (fun _ _ => .error "boom".data) [] "t".data "s".data
        ["devils_advocate".data, "no_such_perspective".data] [])
      "devils_advocate".data = true
      ↔ "devils_advocate".data ∈ ["devils_advocate".data, "no_such_perspective".data])
    ∧ ¬ (dictHas (analyzeStrategy ⟨true, "gemini".data⟩
        (fun _ _ => .error "boom".data) [] "t".data "s".data
        ["devils_advocate".data, "no_such_perspective".data] [])
      "systems_thinker".data = true) := by
  constructor
  · exact c3_analyze_strategy_key_set _ _ _ _ _ _ _ _
  · intro hcontra
    have hmem := (c3_analyze_strategy_key_set ⟨true, "gemini".data⟩
      (fun _ _ => .error "boom".data) [] "t".data "s".data
      ["devils_advocate".data, "no_such_perspective".data] []
      "systems_thinker".data).mp hcontra
    exact absurd hmem (by decide)

/-- C5: a perspective task that raised yields, under its own key, a degraded
`AnalysisResult` with confidence `0.0` whose analysis text is the
classification of the exception message (auth, unknown model, rate limit,
credits, overload, or generic), and no exception escapes `analyze_strategy`;
when the message matches the rate-limit pattern (and none of the earlier
patterns), the analysis text is the rate-limit-specific message. -/
theorem c5_failed_task_degraded_entry (cfg : AnalyzerConfig)
    (gateway : PyStr → PyStr → Except PyStr PyStr) (cs ts strategy : PyStr)
    (perspectives ms : List PyStr) (p e : PyStr)
    (hmem : p ∈ perspectives)
    (herr : analyzeFromPerspective gateway cs ts strategy p ms = .error e) :
    dictGet (analyzeStrategy cfg gateway cs ts strategy perspectives ms) p
      = some (failedAnalysisResult cfg p e ts)
    ∧ (failedAnalysisResult cfg p e ts).confidence_score = 0
    ∧ (failedAnalysisResult cfg p e ts).analysis = classifyFailureText cfg e
    ∧ (pyContains (pyLower e) "API key".data = false →
       pyContains (pyLower e) "unauthorized".data = false →
       pyContains (pyLower e) "model".data = false →
       pyContains (pyLower e) "rate limit".data = true →
       classifyFailureText cfg e
         = "Analysis failed: ".data ++ apiTypeName cfg
             ++ " rate limit exceeded. Please wait a moment and try again.".data) := by
  refine ⟨?_, rfl, rfl, ?_⟩
  · rw [dictGet_analyzeStrategy, if_pos hmem]
    unfold strategyEntry
    rw [herr]
  · intro h1 h2 h3 h4
    simp only [classifyFailureText, h1, h2, h3, h4, Bool.or_self, Bool.false_or,
      if_neg, ite_true, ite_false, Bool.false_eq_true, if_false]

/-- Witness for C5: a gateway that always raises a rate-limit error makes the
requested perspective's entry the degraded result whose analysis is the
rate-limit message. -/
theorem c5_failed_task_degraded_entry_witness :
    dictGet (analyzeStrategy ⟨true, "gemini".data⟩
        (fun _ _ => .error "rate limit exceeded".data) [] "t".data "s".data
        ["devils_advocate".data] []) "devils_advocate".data
      = some (failedAnalysisResult ⟨true, "gemini".data⟩ "devils_advocate".data
          "rate limit exceeded".data "t".data)
    ∧ (failedAnalysisResult ⟨true, "gemini".data⟩ "devils_advocate".data
        "rate limit exceeded".data "t".data).analysis
      = "Analysis failed: OpenRouter rate limit exceeded. Please wait a moment and try again.".data := by
  have H := c5_failed_task_degraded_entry ⟨true, "gemini".data⟩
    (fun _ _ => .error "rate limit exceeded".data) [] "t".data "s".data
    ["devils_advocate".data] [] "devils_advocate".data "rate limit exceeded".data
    (by decide) rfl
  refine ⟨H.1, ?_⟩
  rw [H.2.2.1, H.2.2.2 (by decide) (by decide) (by decide) (by decide)]
  rfl

/-- C7: a parsed response object whose (stringified) analysis text is shorter
than the 20-character minimum after stripping is rejected by coercion
(`_validate_json_structure` returns null); in particular any analysis whose
stripped length is under 10 characters is rejected. -/
theorem c7_short_analysis_rejected (fs : List (PyStr × Json)) :
    ((pyStrip (analysisTextOf fs)).length < 20 → validateJsonStructure (.obj fs) = none)
    ∧ ((pyStrip (analysisTextOf fs)).length < 10 → validateJsonStructure (.obj fs) = none) := by
  constructor
  · intro h
    rw [validate_obj_eq, if_pos h]
  · intro h
    rw [validate_obj_eq, if_pos (Nat.lt_of_lt_of_le h (by norm_num))]

/-- Witness for C7: a nine-character analysis is rejected. -/
theorem c7_short_analysis_rejected_witness :
    (pyStrip (analysisTextOf [(kAnalysis, Json.str "too short".data)])).length < 10
    ∧ validateJsonStructure (.obj [(kAnalysis, Json.str "too short".data)]) = none := by
  refine ⟨by decide, ?_⟩
  exact (c7_short_analysis_rejected [(kAnalysis, Json.str "too short".data)]).2 (by decide)

/-- C6: when the coercion ladder rejects the raw response outright,
`analyze_from_perspective` does not raise but completes with the raw response
text as the analysis, confidence `0.5`, and empty insight and recommendation
lists. -/
theorem c6_coercion_failure_raw_fallback
    (gateway : PyStr → PyStr → Except PyStr PyStr) (cs ts strategy p : PyStr)
    (ms : List PyStr) (pp : PerspectivePrompt) (response : PyStr)
    (hpp : dictGet PERSPECTIVE_PROMPTS p = some pp)
    (hg : gateway (buildFullPrompt pp (mentalModelContextBlock ms) (searchContextBlock cs) strategy)
        (pp.system_role ++ jsonOnlySuffix) = .ok response)
    (hcoerce : parseAndValidateJson response = none) :
    analyzeFromPerspective gateway cs ts strategy p ms
      = .ok ⟨p, response, 1/2, [], [], ts⟩ := by
  simp only [analyzeFromPerspective, hpp, hg, hcoerce]

/-- Witness for C6: an unstructured prose response coerces to nothing and the
raw-text fallback result is returned. -/
theorem c6_coercion_failure_raw_fallback_witness :
    analyzeFromPerspective (fun _ _ => .ok "Service temporarily unavailable, please retry later.".data)
        [] "t".data "s".data "devils_advocate".data []
      = .ok ⟨"devils_advocate".data,
          "Service temporarily unavailable, please retry later.".data, 1/2, [], [], "t".data⟩ := by
  exact c6_coercion_failure_raw_fallback
    (fun _ _ => .ok "Service temporarily unavailable, please retry later.".data)
    [] "t".data "s".data "devils_advocate".data []
    ⟨"You are a thorough devil's advocate analyst who challenges assumptions and identifies strategic vulnerabilities through comprehensive analysis.".data,
     "devils_advocate system prompt body".data, "devils_advocate analysis prompt body".data⟩
    "Service temporarily unavailable, please retry later.".data
    rfl rfl rfl

/-- C9: `analyze_from_perspective` raises the unknown-perspective error for
every perspective id absent from the table — for every gateway, so before
any gateway call — while unknown mental-model ids are silently dropped:
filtering the request down to the known ids changes nothing. -/
theorem c9_unknown_perspective_vs_models
    (gateway : PyStr → PyStr → Except PyStr PyStr) (cs ts strategy p : PyStr)
    (ms : List PyStr) :
    (dictGet PERSPECTIVE_PROMPTS p = none →
      analyzeFromPerspective gateway cs ts strategy p ms
        = .error ("Unknown perspective: ".data ++ p))
    ∧ analyzeFromPerspective gateway cs ts strategy p
        (ms.filter fun m => dictHas MENTAL_MODEL_PROMPTS m)
      = analyzeFromPerspective gateway cs ts strategy p ms := by
  constructor
  · intro h
    simp only [analyzeFromPerspective, h]
  · unfold analyzeFromPerspective
    rw [mentalModelContextBlock_filter]

/-- Witness for C9: an unknown perspective id raises, and a request mixing a
known and an unknown mental-model id behaves as the request with the unknown
id dropped. -/
theorem c9_unknown_perspective_vs_models_witness :
    analyzeFromPerspective (fun _ _ => .ok "irrelevant".data) [] "t".data "s".data
        "chief_vibes_officer".data ["inversion".data]
      = .error ("Unknown perspective: ".data ++ "chief_vibes_officer".data)
    ∧ analyzeFromPerspective (fun _ _ => .ok "irrelevant".data) [] "t".data "s".data
        "devils_advocate".data
        (["inversion".data, "astrology".data].filter fun m => dictHas MENTAL_MODEL_PROMPTS m)
      = analyzeFromPerspective (fun _ _ => .ok "irrelevant".data) [] "t".data "s".data
        "devils_advocate".data ["inversion".data, "astrology".data] := by
  constructor
  · exact (c9_unknown_perspective_vs_models (fun _ _ => .ok "irrelevant".data)
      [] "t".data "s".data "chief_vibes_officer".data ["inversion".data]).1 rfl
  · exact (c9_unknown_perspective_vs_models (fun _ _ => .ok "irrelevant".data)
      [] "t".data "s".data "devils_advocate".data
      ["inversion".data, "astrology".data]).2

/-- Accumulating one element per item is mapping. -/
theorem foldl_append_singleton {α β : Type} (g : α → β) :
    ∀ (l : List α) (acc : List β),
      l.foldl (fun a x => a ++ [g x]) acc = acc ++ l.map g := by
  intro l
  induction l with
  | nil =>
    intro acc
    simp
  | cons x rest ih =>
    intro acc
    simp only [List.foldl_cons, List.map_cons, ih, List.append_assoc, List.singleton_append]

/-- C4: the deterministic fallback synthesis never fails and sets
`confidence_assessment` to the arithmetic mean of the input confidences
(`0.5` for an empty map), `consensus_level` and `implementation_difficulty`
to `"Medium"`, and a fallback note naming the triggering error. -/
theorem c4_fallback_synthesis_fields (strategy : PyStr)
    (results : List (PyStr × AnalysisResult)) (errorMsg : PyStr) :
    (results = [] →
      dictGet (createFallbackSynthesis strategy results errorMsg) "confidence_assessment".data
        = some (.num (1/2)))
    ∧ (results ≠ [] →
      dictGet (createFallbackSynthesis strategy results errorMsg) "confidence_assessment".data
        = some (.num ((results.map fun pr => pr.2.confidence_score).sum / (results.length : ℚ))))
    ∧ dictGet (createFallbackSynthesis strategy results errorMsg) "consensus_level".data
        = some (.str "Medium".data)
    ∧ dictGet (createFallbackSynthesis strategy results errorMsg) "implementation_difficulty".data
        = some (.str "Medium".data)
    ∧ dictGet (createFallbackSynthesis strategy results errorMsg) "_synthesis_note".data
        = some (.str ("Fallback synthesis used due to: ".data ++ errorMsg)) := by
  refine ⟨?_, ?_, ?_, ?_, ?_⟩
  · intro h
    subst h
    simp [createFallbackSynthesis, dictGet]
  · intro hne
    have hs := foldl_append_singleton (fun pr : PyStr × AnalysisResult => pr.2.confidence_score)
      results []
    have hie : (results.map fun pr : PyStr × AnalysisResult => pr.2.confidence_score).isEmpty
        = false := by
      cases results with
      | nil => exact absurd rfl hne
      | cons a b => rfl
    simp [createFallbackSynthesis, dictGet, hs, hie]
  · simp [createFallbackSynthesis, dictGet]
  · simp [createFallbackSynthesis, dictGet]
  · simp [createFallbackSynthesis, dictGet]

/-- Witness for C4: input confidences 0.2, 0.4, 0.6 give a fallback report
with confidence assessment 0.4 and the note naming the error. -/
theorem c4_fallback_synthesis_fields_witness :
    dictGet (createFallbackSynthesis "s".data
        [("a".data, ⟨"a".data, "x".data, 1/5, [], [], "t".data⟩),
         ("b".data, ⟨"b".data, "y".data, 2/5, [], [], "t".data⟩),
         ("c".data, ⟨"c".data, "z".data, 3/5, [], [], "t".data⟩)] "unparseable prose".data)
      "confidence_assessment".data = some (.num (2/5))
    ∧ dictGet (createFallbackSynthesis "s".data
        [("a".data, ⟨"a".data, "x".data, 1/5, [], [], "t".data⟩),
         ("b".data, ⟨"b".data, "y".data, 2/5, [], [], "t".data⟩),
         ("c".data, ⟨"c".data, "z".data, 3/5, [], [], "t".data⟩)] "unparseable prose".data)
      "_synthesis_note".data
      = some (.str ("Fallback synthesis used due to: ".data ++ "unparseable prose".data)) := by
  have H := c4_fallback_synthesis_fields "s".data
    [("a".data, ⟨"a".data, "x".data, 1/5, [], [], "t".data⟩),
     ("b".data, ⟨"b".data, "y".data, 2/5, [], [], "t".data⟩),
     ("c".data, ⟨"c".data, "z".data, 3/5, [], [], "t".data⟩)] "unparseable prose".data
  refine ⟨?_, H.2.2.2.2⟩
  rw [H.2.1 (by simp)]
  norm_num

/-- A list of rationals from `[0, 1]` sums within `[0, length]`. -/
theorem sum_bounds_of_mem (l : List ℚ) (h : ∀ x ∈ l, 0 ≤ x ∧ x ≤ 1) :
    0 ≤ l.sum ∧ l.sum ≤ (l.length : ℚ) := by
  induction l with
  | nil => simp
  | cons x rest ih =>
    have hx := h x (List.mem_cons_self x rest)
    have hr := ih fun y hy => h y (List.mem_cons_of_mem x hy)
    constructor
    · simpa using add_nonneg hx.1 hr.1
    · simp only [List.sum_cons, List.length_cons]
      push_cast
      linarith [hx.2, hr.2]

/-- C1 (amended): every `AnalysisResult` the code produces — validated
coercion, raw-text coercion fallback, or orchestrator failure entry — has
confidence in `[0, 1]`, and the deterministic fallback synthesis keeps its
`confidence_assessment` in `[0, 1]` whenever the input confidences are (as
the orchestrator guarantees). The claim's remaining path, a model-produced
synthesis report, is not range-checked by the code — see the counterexample. -/
theorem c1_confidence_bounds_amended :
    (∀ j out, validateJsonStructure j = some out →
      ∃ q, dictGet out kConfidence = some (.num q) ∧ 0 ≤ q ∧ q ≤ 1)
    ∧ (∀ (gateway : PyStr → PyStr → Except PyStr PyStr) cs ts strategy p ms r,
        analyzeFromPerspective gateway cs ts strategy p ms = .ok r →
        0 ≤ r.confidence_score ∧ r.confidence_score ≤ 1)
    ∧ (∀ cfg (gateway : PyStr → PyStr → Except PyStr PyStr) cs ts strategy
        perspectives ms p r,
        dictGet (analyzeStrategy cfg gateway cs ts strategy perspectives ms) p = some r →
        0 ≤ r.confidence_score ∧ r.confidence_score ≤ 1)
    ∧ (∀ strategy results errorMsg,
        (∀ p r, (p, r) ∈ results → 0 ≤ r.confidence_score ∧ r.confidence_score ≤ 1) →
        ∃ q, dictGet (createFallbackSynthesis strategy results errorMsg)
            "confidence_assessment".data = some (.num q) ∧ 0 ≤ q ∧ q ≤ 1) := by
  refine ⟨validate_confidence_bound, analyzeFromPerspective_confidence, ?_, ?_⟩
  · intro cfg gateway cs ts strategy perspectives ms p r h
    rw [dictGet_analyzeStrategy] at h
    by_cases hp : p ∈ perspectives
    · rw [if_pos hp] at h
      obtain rfl := Option.some_inj.mp h
      unfold strategyEntry
      cases hA : analyzeFromPerspective gateway cs ts strategy p ms with
      | error e =>
        simp only [hA]
        refine ⟨le_refl 0, ?_⟩
        show (0:ℚ) ≤ 1
        norm_num
      | ok r' =>
        simp only [hA]
        exact analyzeFromPerspective_confidence gateway cs ts strategy p ms r' hA
    · rw [if_neg hp] at h
      exact absurd h (by simp)
  · intro strategy results errorMsg hin
    by_cases hres : results = []
    · subst hres
      exact ⟨1/2, by simp [createFallbackSynthesis, dictGet], by norm_num, by norm_num⟩
    · have hmap : ∀ x ∈ results.map fun pr : PyStr × AnalysisResult => pr.2.confidence_score,
          0 ≤ x ∧ x ≤ 1 := by
        intro x hx
        obtain ⟨pr, hpr, rfl⟩ := List.mem_map.mp hx
        exact hin pr.1 pr.2 (by rw [Prod.mk.eta]; exact hpr)
      have hsum := sum_bounds_of_mem _ hmap
      rw [List.length_map] at hsum
      have hlen : 0 < (results.length : ℚ) := by
        exact_mod_cast List.length_pos.mpr hres
      have hs := foldl_append_singleton
        (fun pr : PyStr × AnalysisResult => pr.2.confidence_score) results []
      have hie : (results.map fun pr : PyStr × AnalysisResult => pr.2.confidence_score).isEmpty
          = false := by
        cases results with
        | nil => exact absurd rfl hres
        | cons a b => rfl
      refine ⟨(results.map fun pr : PyStr × AnalysisResult => pr.2.confidence_score).sum
        / (results.length : ℚ), ?_, ?_, ?_⟩
      · simp [createFallbackSynthesis, dictGet, hs, hie]
      · exact div_nonneg hsum.1 hlen.le
      · exact (div_le_one hlen).mpr hsum.2

/-- Witness for C1 (amended): the fallback synthesis over one degraded entry
keeps its confidence assessment in range. -/
theorem c1_confidence_bounds_amended_witness :
    ∃ q, dictGet (createFallbackSynthesis "s".data
        [("devils_advocate".data,
          ⟨"devils_advocate".data, "Analysis failed".data, 0, [], [], "t".data⟩)]
        "boom".data) "confidence_assessment".data = some (.num q)
      ∧ 0 ≤ q ∧ q ≤ 1 := by
  refine c1_confidence_bounds_amended.2.2.2 "s".data
    [("devils_advocate".data,
      ⟨"devils_advocate".data, "Analysis failed".data, 0, [], [], "t".data⟩)]
    "boom".data ?_
  intro p r h
  rw [List.mem_singleton] at h
  obtain ⟨-, rfl⟩ := Prod.mk.injEq .. ▸ h
  norm_num

set_option maxRecDepth 4000 in
/-- Counterexample for C1 as stated: a synthesis response that carries every
required field but `confidence_assessment: 5` is returned by
`synthesize_results` unchanged — the model-produced report's confidence is
never range-checked, so the claimed `[0, 1]` invariant fails on that path. -/
theorem c1_model_synthesis_unvalidated_cex :
    synthesizeResults
        (fun _ => .ok "\x7b\"executive_summary\": \"ok\", \"critical_insights\": [], \"priority_recommendations\": [], \"risk_mitigation\": [], \"implementation_roadmap\": [], \"confidence_assessment\": 5\x7d".data)
        "s".data []
      = .ok (.obj
          [("executive_summary".data, .str "ok".data),
           ("critical_insights".data, .arr []),
           ("priority_recommendations".data, .arr []),
           ("risk_mitigation".data, .arr []),
           ("implementation_roadmap".data, .arr []),
           ("confidence_assessment".data, .int 5)])
    ∧ ¬ ((0 : ℤ) ≤ 5 ∧ (5 : ℤ) ≤ 1) := by
  constructor
  · rfl
  · norm_num

/-- Membership tests on a dict, list or string value never raise. -/
theorem pyIn_safe (f : PyStr) (j : Json) (h : membershipSafeJson j = true) :
    ∃ b, pyIn f j = .ok b := by
  cases j with
  | obj fs => exact ⟨_, rfl⟩
  | arr items => exact ⟨_, rfl⟩
  | str s => exact ⟨_, rfl⟩
  | null => exact absurd h (by simp [membershipSafeJson])
  | bool b => exact absurd h (by simp [membershipSafeJson])
  | int n => exact absurd h (by simp [membershipSafeJson])
  | num q => exact absurd h (by simp [membershipSafeJson])

/-- On an `in`-safe value the required-field loop never raises. -/
theorem checkRequired_safe (sr : Json) (h : membershipSafeJson sr = true) :
    ∀ l : List PyStr, ∃ o, checkRequired sr l = .ok o := by
  intro l
  induction l with
  | nil => exact ⟨.report sr, rfl⟩
  | cons f rest ih =>
    obtain ⟨b, hb⟩ := pyIn_safe f sr h
    cases b with
    | true =>
      obtain ⟨o, ho⟩ := ih
      exact ⟨o, by unfold checkRequired; rw [hb]; exact ho⟩
    | false =>
      exact ⟨.invalid ("Missing required field: ".data ++ f), by unfold checkRequired; rw [hb]⟩

/-- A value that passes the required-field loop is returned as is, holding
every checked field. -/
theorem checkRequired_report_inv (sr : Json) :
    ∀ (l : List PyStr) (j : Json), checkRequired sr l = .ok (.report j) →
      j = sr ∧ ∀ f ∈ l, pyIn f sr = .ok true := by
  intro l
  induction l with
  | nil =>
    intro j h
    simp only [checkRequired] at h
    have hj : SynthOutcome.report sr = .report j := Except.ok.inj h
    refine ⟨?_, by simp⟩
    cases hj
    rfl
  | cons f rest ih =>
    intro j h
    simp only [checkRequired] at h
    split at h
    · exact absurd h (by simp)
    · rename_i hb
      obtain ⟨hj, hrest⟩ := ih j h
      refine ⟨hj, ?_⟩
      intro f' hf'
      rcases List.mem_cons.mp hf' with rfl | hf'
      · exact hb
      · exact hrest f' hf'
    · rename_i hb
      exact absurd h (by simp)

/-- The fallback report binds every required field. -/
theorem fallback_has_required (strategy : PyStr) (results : List (PyStr × AnalysisResult))
    (errorMsg : PyStr) :
    ∀ f ∈ synthesisRequiredFields,
      pyIn f (.obj (createFallbackSynthesis strategy results errorMsg)) = .ok true := by
  intro f hf
  have hkeys : (createFallbackSynthesis strategy results errorMsg).map Prod.fst
      = ["executive_summary".data, "critical_insights".data, "priority_recommendations".data,
         "risk_mitigation".data, "implementation_roadmap".data, "success_metrics".data,
         "confidence_assessment".data, "key_assumptions_to_validate".data,
         "alternative_approaches".data, "consensus_level".data,
         "implementation_difficulty".data, "_synthesis_note".data] := by
    simp [createFallbackSynthesis]
  have hmem : dictHas (createFallbackSynthesis strategy results errorMsg) f = true := by
    rw [dictHas_eq_keys_contains, hkeys]
    fin_cases hf <;> rfl
  show Except.ok (dictHas (createFallbackSynthesis strategy results errorMsg) f)
    = Except.ok true
  rw [hmem]

/-- A gateway attempt whose response is `in`-safe cannot raise. -/
theorem synthAttempt_ok_of_safe (g : ℕ → Except PyStr PyStr) (i : ℕ) (r : PyStr)
    (hg : g i = .ok r) (hsafe : synthContentSafe r = true) :
    ∃ o, synthAttempt g i = .ok o := by
  have hred : synthAttempt g i
      = (match parseJson (extractSynthContent r) with
         | none => Except.ok (SynthOutcome.invalid jsonDecodeMessage)
         | some sr => checkRequired sr synthesisRequiredFields) := by
    unfold synthAttempt
    rw [hg]
  rw [hred]
  unfold synthContentSafe at hsafe
  cases hp : parseJson (extractSynthContent r) with
  | none => exact ⟨.invalid jsonDecodeMessage, rfl⟩
  | some sr =>
    rw [hp] at hsafe
    exact checkRequired_safe sr hsafe synthesisRequiredFields

/-- An attempt that produced a report produced one with every required field. -/
theorem synthAttempt_report_fields (g : ℕ → Except PyStr PyStr) (i : ℕ) (j : Json)
    (h : synthAttempt g i = .ok (.report j)) :
    ∀ f ∈ synthesisRequiredFields, pyIn f j = .ok true := by
  unfold synthAttempt at h
  split at h
  · exact absurd h (by simp)
  · split at h
    · exact absurd h (by simp)
    · rename_i sr hsr
      obtain ⟨rfl, hall⟩ := checkRequired_report_inv sr synthesisRequiredFields j h
      exact hall

/-- C2 (amended): whenever each of the (at most three) synthesis gateway
calls returns response text — rather than raising — whose content the
membership test accepts, `synthesize_results` returns a report carrying all
six required top-level fields, absorbing every parse or missing-field
failure via retries and, after the third, the deterministic fallback. A
gateway exception is not absorbed — see the counterexample. -/
theorem c2_synthesize_absorbs_validation_failures
    (g : ℕ → Except PyStr PyStr) (strategy : PyStr)
    (results : List (PyStr × AnalysisResult))
    (hg : ∀ i, i < 3 → ∃ r, g i = .ok r ∧ synthContentSafe r = true) :
    ∃ j, synthesizeResults g strategy results = .ok j
      ∧ ∀ f ∈ synthesisRequiredFields, pyIn f j = .ok true := by
  obtain ⟨r0, hg0, hs0⟩ := hg 0 (by norm_num)
  obtain ⟨r1, hg1, hs1⟩ := hg 1 (by norm_num)
  obtain ⟨r2, hg2, hs2⟩ := hg 2 (by norm_num)
  obtain ⟨o0, ho0⟩ := synthAttempt_ok_of_safe g 0 r0 hg0 hs0
  obtain ⟨o1, ho1⟩ := synthAttempt_ok_of_safe g 1 r1 hg1 hs1
  obtain ⟨o2, ho2⟩ := synthAttempt_ok_of_safe g 2 r2 hg2 hs2
  unfold synthesizeResults
  rw [ho0]
  cases o0 with
  | report j => exact ⟨j, rfl, synthAttempt_report_fields g 0 j ho0⟩
  | invalid e0 =>
    rw [ho1]
    cases o1 with
    | report j => exact ⟨j, rfl, synthAttempt_report_fields g 1 j ho1⟩
    | invalid e1 =>
      rw [ho2]
      cases o2 with
      | report j => exact ⟨j, rfl, synthAttempt_report_fields g 2 j ho2⟩
      | invalid e2 =>
        exact ⟨.obj (createFallbackSynthesis strategy results e2), rfl,
          fallback_has_required strategy results e2⟩

/-- Witness for C2 (amended): prose responses on all three attempts, over a
map with a single all-zero-confidence failed entry, still yield a report with
every required field (the fallback). -/
theorem c2_synthesize_absorbs_validation_failures_witness :
    ∃ j, synthesizeResults (fun _ => .ok "I could not produce JSON, sorry!".data)
        "Launch plan".data
        [("devils_advocate".data,
          ⟨"devils_advocate".data, "Analysis failed".data, 0, [], [], "t".data⟩)]
      = .ok j
      ∧ ∀ f ∈ synthesisRequiredFields, pyIn f j = .ok true := by
  refine c2_synthesize_absorbs_validation_failures
    (fun _ => .ok "I could not produce JSON, sorry!".data) "Launch plan".data
    [("devils_advocate".data,
      ⟨"devils_advocate".data, "Analysis failed".data, 0, [], [], "t".data⟩)] ?_
  intro i hi
  exact ⟨"I could not produce JSON, sorry!".data, rfl, rfl⟩

/-- Counterexample for C2 as stated: `synthesize_results` catches only
`json.JSONDecodeError` and `ValueError`, so a gateway exception (here a
rate-limit error surviving the retries) propagates to the caller even over a
map with a single failed entry of confidence 0.0 — the function does raise. -/
theorem c2_gateway_exception_propagates_cex :
    synthesizeResults (fun _ => .error "Rate limit exceeded - will retry: 429".data)
        "Launch plan".data
        [("devils_advocate".data,
          ⟨"devils_advocate".data, "Analysis failed".data, 0, [], [], "t".data⟩)]
      = .error "Rate limit exceeded - will retry: 429".data := rfl

/-- C10 (implicit): the coercer does not require all four documented fields —
a raw text parsing directly to an object with only an `analysis` value (whose
stringification strips to at least the minimum length) coerces successfully,
with `confidence_score` defaulted to `0.5` and both lists to `[]`; and a
non-list value under either list field is replaced by `[]`, not rejected. -/
theorem c10_missing_fields_defaulted :
    (∀ (t : PyStr) (v : Json),
      parseJson t = some (.obj [(kAnalysis, v)]) →
      20 ≤ (pyStrip (pyStr v)).length →
      parseAndValidateJson t
        = some [(kAnalysis, .str (pyStr v)), (kConfidence, .num (1/2)),
                (kInsights, .arr []), (kRecommendations, .arr [])])
    ∧ (∀ (fs out : List (PyStr × Json)) (v : Json),
        validateJsonStructure (.obj fs) = some out →
        dictGet fs kInsights = some v → (∀ items, v ≠ .arr items) →
        dictGet out kInsights = some (.arr []))
    ∧ (∀ (fs out : List (PyStr × Json)) (v : Json),
        validateJsonStructure (.obj fs) = some out →
        dictGet fs kRecommendations = some v → (∀ items, v ≠ .arr items) →
        dictGet out kRecommendations = some (.arr [])) := by
  refine ⟨?_, ?_, ?_⟩
  · intro t v hparse hlen
    unfold parseAndValidateJson
    rw [hparse]
    show validateJsonStructure (.obj [(kAnalysis, v)])
      = some [(kAnalysis, .str (pyStr v)), (kConfidence, .num (1/2)),
              (kInsights, .arr []), (kRecommendations, .arr [])]
    rw [validate_obj_eq]
    have ha : analysisTextOf [(kAnalysis, v)] = pyStr v := by
      simp [analysisTextOf, ensureRequiredFields, requiredFieldDefaults, dictGetD, dictGet,
        dictSet, dictHas, List.foldl]
    rw [ha, if_neg (Nat.not_lt.mpr hlen)]
    have hc : max (0:ℚ) (min 1 (1/2)) = 1/2 := by norm_num
    simp [validatedDict, analysisTextOf, clampedConfidenceOf, cleanedInsightsOf,
      cleanedRecsOf, ensureRequiredFields, requiredFieldDefaults, dictGetD, dictGet,
      dictSet, dictHas, List.foldl, cleanStrList, pyFloat, hc,
      kAnalysis, kConfidence, kInsights, kRecommendations]
    norm_num
  · intro fs out v hval hv hnv
    obtain ⟨fs', hfs, rfl, -⟩ := validate_some_inv (.obj fs) out hval
    obtain rfl : fs = fs' := Json.obj.inj hfs
    rw [dictGet_validated_insights]
    have hcl : cleanedInsightsOf fs = [] := by
      unfold cleanedInsightsOf
      unfold dictGetD
      rw [dictGet_ensure_insights, hv]
      cases v with
      | arr items => exact absurd rfl (hnv items)
      | null => rfl
      | bool b => rfl
      | int n => rfl
      | num q => rfl
      | str s => rfl
      | obj fields => rfl
    rw [hcl]
  · intro fs out v hval hv hnv
    obtain ⟨fs', hfs, rfl, -⟩ := validate_some_inv (.obj fs) out hval
    obtain rfl : fs = fs' := Json.obj.inj hfs
    rw [dictGet_validated_recommendations]
    have hcl : cleanedRecsOf fs = [] := by
      unfold cleanedRecsOf
      unfold dictGetD
      rw [dictGet_ensure_recommendations, hv]
      cases v with
      | arr items => exact absurd rfl (hnv items)
      | null => rfl
      | bool b => rfl
      | int n => rfl
      | num q => rfl
      | str s => rfl
      | obj fields => rfl
    rw [hcl]

/-- Witness for C10: an analysis-only object coerces with the defaults
filled in. -/
theorem c10_missing_fields_defaulted_witness :
    parseAndValidateJson "\x7b\"analysis\": \"This is a sufficiently long analysis text.\"\x7d".data
      = some [(kAnalysis, .str (pyStr (.str "This is a sufficiently long analysis text.".data))),
              (kConfidence, .num (1/2)), (kInsights, .arr []), (kRecommendations, .arr [])] := by
  exact c10_missing_fields_defaulted.1
    "\x7b\"analysis\": \"This is a sufficiently long analysis text.\"\x7d".data
    (.str "This is a sufficiently long analysis text.".data) rfl (by decide)

/-- A list starts with itself before any continuation. -/
theorem pyStartswith_append_self (p r : PyStr) : pyStartswith (p ++ r) p = true := by
  induction p with
  | nil => simp [pyStartswith]
  | cons c ps ih =>
    simp only [List.cons_append, pyStartswith]
    simp [ih]

/-- No value starts at a backtick, whatever the fuel. -/
theorem parseValue_backtick (fuel : ℕ) (cs : PyStr) :
    parseValue fuel (backtickChar :: cs) = none := by
  cases fuel with
  | zero => rfl
  | succ n => simp [parseValue, backtickChar, lcurly, rcurly, Char.isDigit]

/-- `json.loads` rejects any document whose first character is a backtick. -/
theorem parseJson_backtick (cs : PyStr) : parseJson (backtickChar :: cs) = none := by
  unfold parseJson
  have hskip : skipWsL (backtickChar :: cs) = backtickChar :: cs := by
    simp [skipWsL, List.dropWhile_cons, jsonWs, backtickChar]
  rw [hskip, parseValue_backtick]

/-- Stripping is the identity when both ends are non-whitespace. -/
theorem pyStrip_eq_self (l : PyStr) (c d : Char) (m m' : PyStr)
    (h1 : l = c :: m) (h2 : l.reverse = d :: m')
    (hc : pyIsSpace c = false) (hd : pyIsSpace d = false) : pyStrip l = l := by
  unfold pyStrip dropTrailing
  have e1 : l.dropWhile pyIsSpace = l := by
    rw [h1]
    simp [List.dropWhile_cons, hc]
  rw [e1, h2]
  simp only [List.dropWhile_cons, hd]
  simp only [Bool.false_eq_true, if_false]
  rw [← h2, List.reverse_reverse]

theorem coerce_fenceWrap (mid : PyStr) (fs : List (PyStr × Json))
    (hparse : parseJson (lcurly :: (mid ++ [rcurly])) = some (.obj fs)) :
    parseAndValidateJson (fenceWrap (lcurly :: (mid ++ [rcurly])))
      = validateJsonStructure (.obj fs) := by
  have hopen : "```json\n".data = backtickChar :: "``json\n".data := by decide
  have hshape1 : fenceWrap (lcurly :: (mid ++ [rcurly]))
      = backtickChar :: ("``json\n".data ++ (lcurly :: (mid ++ [rcurly])) ++ "\n```".data) := by
    unfold fenceWrap
    rw [hopen]
    simp [List.cons_append, List.append_assoc]
  have hshape2 : (fenceWrap (lcurly :: (mid ++ [rcurly]))).reverse
      = backtickChar :: ("``\n".data ++ ((lcurly :: (mid ++ [rcurly])).reverse
          ++ "```json\n".data.reverse)) := by
    unfold fenceWrap
    simp only [List.reverse_append]
    rw [show "\n```".data.reverse = backtickChar :: "``\n".data from by decide]
    simp [List.cons_append, List.append_assoc]
  have h1 : parseJson (fenceWrap (lcurly :: (mid ++ [rcurly]))) = none := by
    rw [hshape1]
    exact parseJson_backtick _
  have hstrip : pyStrip (fenceWrap (lcurly :: (mid ++ [rcurly])))
      = fenceWrap (lcurly :: (mid ++ [rcurly])) :=
    pyStrip_eq_self _ backtickChar backtickChar _ _ hshape1 hshape2 (by decide) (by decide)
  have hdecomp : fenceWrap (lcurly :: (mid ++ [rcurly]))
      = "```json".data ++ ('\n' :: ((lcurly :: (mid ++ [rcurly])) ++ "\n```".data)) := by
    unfold fenceWrap
    rw [show "```json\n".data = "```json".data ++ ['\n'] from by decide]
    simp [List.append_assoc, List.cons_append, List.singleton_append]
  have hsw : pyStartswith (fenceWrap (lcurly :: (mid ++ [rcurly]))) "```json".data = true := by
    rw [hdecomp]
    exact pyStartswith_append_self _ _
  have hdrop : (fenceWrap (lcurly :: (mid ++ [rcurly]))).drop 7
      = '\n' :: ((lcurly :: (mid ++ [rcurly])) ++ "\n```".data) := by
    rw [hdecomp]
    rw [show (7:ℕ) = ("```json".data).length from by decide]
    exact List.drop_left _ _
  have hsplitNl : '\n' :: ((lcurly :: (mid ++ [rcurly])) ++ "\n```".data)
      = ('\n' :: ((lcurly :: (mid ++ [rcurly])) ++ ['\n'])) ++ "```".data := by
    rw [show "\n```".data = ['\n'] ++ "```".data from by decide]
    simp [List.append_assoc, List.cons_append]
  have hend : pyEndswith ('\n' :: ((lcurly :: (mid ++ [rcurly])) ++ "\n```".data))
      "```".data = true := by
    unfold pyEndswith
    rw [hsplitNl, List.reverse_append]
    rw [show ("```".data).reverse = "```".data.reverse ++ [] from by decide]
    exact pyStartswith_append_self _ _
  have htake : ('\n' :: ((lcurly :: (mid ++ [rcurly])) ++ "\n```".data)).take
        (('\n' :: ((lcurly :: (mid ++ [rcurly])) ++ "\n```".data)).length - 3)
      = '\n' :: ((lcurly :: (mid ++ [rcurly])) ++ ['\n']) := by
    rw [hsplitNl]
    rw [show (('\n' :: ((lcurly :: (mid ++ [rcurly])) ++ ['\n'])) ++ "```".data).length - 3
        = ('\n' :: ((lcurly :: (mid ++ [rcurly])) ++ ['\n'])).length from by
      simp [List.length_append]]
    exact List.take_left _ _
  have hfind : pyFind ('\n' :: ((lcurly :: (mid ++ [rcurly])) ++ ['\n'])) lcurly = 1 := by
    unfold pyFind
    rw [show ('\n' :: ((lcurly :: (mid ++ [rcurly])) ++ ['\n']))
        = '\n' :: lcurly :: ((mid ++ [rcurly]) ++ ['\n']) from by
      simp [List.cons_append]]
    simp [findCharIdx, lcurly]
  have hrevshape : ('\n' :: ((lcurly :: (mid ++ [rcurly])) ++ ['\n'])).reverse
      = '\n' :: rcurly :: (mid.reverse ++ [lcurly, '\n']) := by
    simp [List.reverse_append, List.reverse_cons, List.cons_append, List.append_assoc]
  have hrfind : pyRFind ('\n' :: ((lcurly :: (mid ++ [rcurly])) ++ ['\n'])) rcurly
      = (mid.length : Int) + 2 := by
    unfold pyRFind
    rw [hrevshape]
    rw [show findCharIdx rcurly ('\n' :: rcurly :: (mid.reverse ++ [lcurly, '\n'])) = some 1 from by
      simp [findCharIdx, rcurly]]
    simp [List.length_append, List.length_cons]
  have hslice : pySlice ('\n' :: ((lcurly :: (mid ++ [rcurly])) ++ ['\n'])) 1 (mid.length + 3)
      = lcurly :: (mid ++ [rcurly]) := by
    unfold pySlice
    rw [show ('\n' :: ((lcurly :: (mid ++ [rcurly])) ++ ['\n']))
        = ('\n' :: (lcurly :: (mid ++ [rcurly]))) ++ ['\n'] from by simp [List.cons_append]]
    rw [show mid.length + 3 = ('\n' :: (lcurly :: (mid ++ [rcurly]))).length from by
      simp [List.length_cons, List.length_append]]
    rw [List.take_left]
    rfl
  unfold parseAndValidateJson
  rw [h1]
  show coerceStrategy2 (fenceWrap (lcurly :: (mid ++ [rcurly])))
    = validateJsonStructure (.obj fs)
  simp only [coerceStrategy2]
  rw [hstrip, hsw]
  simp only [eq_self_iff_true, if_true]
  rw [hdrop, hend]
  simp only [eq_self_iff_true, if_true]
  rw [htake, hfind, hrfind]
  rw [if_pos (And.intro (by norm_num) (by omega))]
  rw [show ((1:ℤ)).toNat = 1 from rfl]
  rw [show ((mid.length : ℤ) + 2 + 1).toNat = mid.length + 3 from by omega]
  rw [hslice, hparse]

/-- The handwritten decimal renderer never yields the empty string. -/
theorem natDecimalAux_ne_nil (fuel n : ℕ) : natDecimalAux (fuel + 1) n ≠ [] := by
  unfold natDecimalAux
  split
  · simp
  · simp [List.append_eq_nil]

/-- `str()` of an integer is nonempty. -/
theorem intDecimal_ne_nil (n : ℤ) : intDecimal n ≠ [] := by
  unfold intDecimal
  split
  · simp
  · exact natDecimalAux_ne_nil _ _

/-- `str()` of a float is nonempty. -/
theorem renderFloat_ne_nil (q : ℚ) : renderFloat q ≠ [] := by
  unfold renderFloat
  simp [List.append_eq_nil]

/-- `str()` of a truthy value is a nonempty string. -/
theorem pyStr_ne_nil_of_truthy (j : Json) (h : pyTruthy j = true) : pyStr j ≠ [] := by
  cases j with
  | null => exact absurd h (by simp [pyTruthy])
  | bool b =>
    cases b with
    | true => simp [pyStr]
    | false => exact absurd h (by simp [pyTruthy])
  | int n => exact intDecimal_ne_nil n
  | num q => exact renderFloat_ne_nil q
  | str s =>
    simp only [pyTruthy, Bool.not_eq_true'] at h
    simpa [pyStr, List.isEmpty_iff] using h
  | arr items => simp [pyStr]
  | obj fields => simp [pyStr]

/-- Cleaning an already-cleaned string list is the identity. -/
theorem cleaned_elements (l : List Json) :
    (((l.filter pyTruthy).map fun it => Json.str (pyStr it)).filter pyTruthy).map
        (fun it => Json.str (pyStr it))
      = (l.filter pyTruthy).map fun it => Json.str (pyStr it) := by
  induction l with
  | nil => rfl
  | cons x rest ih =>
    by_cases hx : pyTruthy x = true
    · have hne := pyStr_ne_nil_of_truthy x hx
      have htr : pyTruthy (Json.str (pyStr x)) = true := by
        simp [pyTruthy, List.isEmpty_iff, hne]
      simp only [List.filter_cons, hx, if_true, List.map_cons, htr, ih]
      simp [pyStr]
    · simp only [List.filter_cons, hx]
      simp only [Bool.false_eq_true, if_false] at *
      exact ih

/-- Re-cleaning the list the coercer produced changes nothing. -/
theorem cleanStrList_arr_cleaned (v : Json) :
    cleanStrList (.arr (cleanStrList v)) = cleanStrList v := by
  cases v with
  | arr items => exact cleaned_elements items
  | null => rfl
  | bool b => rfl
  | int n => rfl
  | num q => rfl
  | str s => rfl
  | obj fields => rfl

/-- The defaults pass is the identity when every required field is present. -/
theorem ensure_id_of_present (d : List (PyStr × Json))
    (hA : dictHas d kAnalysis = true) (hC : dictHas d kConfidence = true)
    (hI : dictHas d kInsights = true) (hR : dictHas d kRecommendations = true) :
    ensureRequiredFields d = d := by
  simp [ensureRequiredFields, requiredFieldDefaults, List.foldl, hA, hC, hI, hR]

/-- Re-validating an accepted record accepts it unchanged: the coercer is
idempotent on its own output. -/
theorem validate_idem (fs out : List (PyStr × Json))
    (h : validateJsonStructure (.obj fs) = some out) :
    validateJsonStructure (.obj out) = some out := by
  obtain ⟨fs', hfs, rfl, hlen⟩ := validate_some_inv _ _ h
  obtain rfl : fs = fs' := Json.obj.inj hfs
  have hA := dictGet_validated_analysis fs
  have hC := dictGet_validated_confidence fs
  have hI := dictGet_validated_insights fs
  have hR := dictGet_validated_recommendations fs
  have hens : ensureRequiredFields (validatedDict fs) = validatedDict fs :=
    ensure_id_of_present _ (by simp [dictHas, hA]) (by simp [dictHas, hC])
      (by simp [dictHas, hI]) (by simp [dictHas, hR])
  have hA2 : analysisTextOf (validatedDict fs) = analysisTextOf fs := by
    unfold analysisTextOf dictGetD
    rw [hens, hA]
    rfl
  have hC2 : clampedConfidenceOf (validatedDict fs) = clampedConfidenceOf fs := by
    unfold clampedConfidenceOf dictGetD
    rw [hens, hC]
    show max 0 (min 1 (clampedConfidenceOf fs)) = clampedConfidenceOf fs
    have hb := clampedConfidence_bounds fs
    rw [min_eq_right hb.2, max_eq_right hb.1]
  have hI2 : cleanedInsightsOf (validatedDict fs) = cleanedInsightsOf fs := by
    unfold cleanedInsightsOf dictGetD
    rw [hens, hI]
    show cleanStrList (.arr (cleanStrList (dictGetD (ensureRequiredFields fs) kInsights Json.null)))
      = cleanStrList (dictGetD (ensureRequiredFields fs) kInsights Json.null)
    exact cleanStrList_arr_cleaned _
  have hR2 : cleanedRecsOf (validatedDict fs) = cleanedRecsOf fs := by
    unfold cleanedRecsOf dictGetD
    rw [hens, hR]
    show cleanStrList
        (.arr (cleanStrList (dictGetD (ensureRequiredFields fs) kRecommendations Json.null)))
      = cleanStrList (dictGetD (ensureRequiredFields fs) kRecommendations Json.null)
    exact cleanStrList_arr_cleaned _
  have hvd : validatedDict (validatedDict fs) = validatedDict fs := by
    show dictSet (dictSet (dictSet (dictSet (ensureRequiredFields (validatedDict fs))
        kAnalysis (.str (analysisTextOf (validatedDict fs))))
        kConfidence (.num (clampedConfidenceOf (validatedDict fs))))
        kInsights (.arr (cleanedInsightsOf (validatedDict fs))))
        kRecommendations (.arr (cleanedRecsOf (validatedDict fs)))
      = validatedDict fs
    rw [hens, hA2, hC2, hI2, hR2]
    rw [dictSet_same _ _ _ hA, dictSet_same _ _ _ hC, dictSet_same _ _ _ hI,
      dictSet_same _ _ _ hR]
  rw [validate_obj_eq, hA2, if_neg hlen, hvd]

/-- An incoming `confidence_score` of `1.7` clamps to `1`. -/
theorem clamped_of_17 (fs : List (PyStr × Json))
    (hv : dictGet fs kConfidence = some (.num (17/10))) :
    clampedConfidenceOf fs = 1 := by
  unfold clampedConfidenceOf dictGetD
  rw [dictGet_ensure_confidence, hv]
  show max 0 (min 1 (17/10 : ℚ)) = 1
  norm_num

/-- C8: coercion is idempotent on clean structured input and invariant under
```json fence wrapping: a direct parse is validated once (i), wrapping the
same object text in a fenced block coerces to the identical record (ii),
re-validating an accepted record returns it unchanged (iii), and an
out-of-range `confidence_score` of `1.7` in the wrapped response is clamped
to `1.0` (iv). -/
theorem c8_coercion_idempotent_fence_invariant (mid : PyStr) (fs : List (PyStr × Json))
    (hparse : parseJson (lcurly :: (mid ++ [rcurly])) = some (.obj fs)) :
    parseAndValidateJson (lcurly :: (mid ++ [rcurly])) = validateJsonStructure (.obj fs)
    ∧ parseAndValidateJson (fenceWrap (lcurly :: (mid ++ [rcurly])))
        = parseAndValidateJson (lcurly :: (mid ++ [rcurly]))
    ∧ (∀ out, validateJsonStructure (.obj fs) = some out →
        validateJsonStructure (.obj out) = some out)
    ∧ (dictGet fs kConfidence = some (.num (17/10)) →
       ∀ out, parseAndValidateJson (fenceWrap (lcurly :: (mid ++ [rcurly]))) = some out →
         dictGet out kConfidence = some (.num 1)) := by
  have hdirect : parseAndValidateJson (lcurly :: (mid ++ [rcurly]))
      = validateJsonStructure (.obj fs) := by
    unfold parseAndValidateJson
    rw [hparse]
  have hwrap := coerce_fenceWrap mid fs hparse
  refine ⟨hdirect, by rw [hwrap, hdirect], fun out => validate_idem fs out, ?_⟩
  intro hconf out hout
  rw [hwrap] at hout
  obtain ⟨fs', hfs, rfl, -⟩ := validate_some_inv _ _ hout
  obtain rfl : fs = fs' := Json.obj.inj hfs
  rw [dictGet_validated_confidence, clamped_of_17 fs hconf]

set_option maxRecDepth 8000 in
/-- Witness for C8 at the fenced Scenario-C response: the wrapped and
unwrapped coercions agree and the `1.7` confidence comes out clamped to `1`. -/
theorem c8_coercion_idempotent_fence_invariant_witness :
    parseJson (lcurly :: ("\"analysis\": \"This strategy has several significant weaknesses.\", \"confidence_score\": 1.7, \"key_insights\": [], \"recommendations\": []".data ++ [rcurly]))
      = some (.obj [(kAnalysis, .str "This strategy has several significant weaknesses.".data),
          (kConfidence, .num (17/10)), (kInsights, .arr []), (kRecommendations, .arr [])])
    ∧ parseAndValidateJson (fenceWrap (lcurly :: ("\"analysis\": \"This strategy has several significant weaknesses.\", \"confidence_score\": 1.7, \"key_insights\": [], \"recommendations\": []".data ++ [rcurly])))
        = parseAndValidateJson (lcurly :: ("\"analysis\": \"This strategy has several significant weaknesses.\", \"confidence_score\": 1.7, \"key_insights\": [], \"recommendations\": []".data ++ [rcurly]))
    ∧ dictGet [(kAnalysis, Json.str "This strategy has several significant weaknesses.".data),
          (kConfidence, Json.num 1), (kInsights, Json.arr []), (kRecommendations, Json.arr [])]
        kConfidence = some (.num 1) := by
  have H := c8_coercion_idempotent_fence_invariant
    "\"analysis\": \"This strategy has several significant weaknesses.\", \"confidence_score\": 1.7, \"key_insights\": [], \"recommendations\": []".data
    [(kAnalysis, Json.str "This strategy has several significant weaknesses.".data),
     (kConfidence, Json.num (17/10)), (kInsights, Json.arr []), (kRecommendations, Json.arr [])]
    (by with_unfolding_all rfl)
  exact ⟨by with_unfolding_all rfl, H.2.1,
    H.2.2.2 (by with_unfolding_all rfl)
      [(kAnalysis, Json.str "This strategy has several significant weaknesses.".data),
       (kConfidence, Json.num 1), (kInsights, Json.arr []), (kRecommendations, Json.arr [])]
      (by with_unfolding_all rfl)⟩
